import Mathlib

/-!
Verification development for the `logsplit` log-splitting tool
(src/logsplit.py).  Lines and file names are modelled as `List Char`;
`datetime` values as a seven-field record.  Pattern matching is modelled
directly over characters; the character classes `\d`, `\s` and `\w` are
modelled at ASCII granularity, which is exact for the token sets and
timestamp shapes the program recognises.
-/

set_option maxRecDepth 4000

namespace LogSplit

/-- ASCII model of the regex word character class `\w` used by the
word-boundary assertion in `extract_severity`. -/
def isWordChar (c : Char) : Bool := c.isAlphanum || c = '_'

/-- Model of the regex whitespace class `\s` (ASCII part). -/
def pyIsSpace (c : Char) : Bool :=
  c == ' ' || c == '\t' || c == '\n' || c == '\r' || c == '\x0b' || c == '\x0c'

/-- Model of Python `str.upper` on ASCII text. -/
def upperStr (s : List Char) : List Char := s.map Char.toUpper

/-- Model of Python `str.lower` on ASCII text. -/
def lowerStr (s : List Char) : List Char := s.map Char.toLower

/-- Numeric value of a list of decimal digit characters (most significant
first), as read by `int` inside `strptime`. -/
def charsToNat (ds : List Char) : Nat :=
  ds.foldl (fun acc c => acc * 10 + (c.toNat - 48)) 0

/-- Model of a Python `datetime.datetime` value. -/
structure PyDateTime where
  year : Nat
  month : Nat
  day : Nat
  hour : Nat
  minute : Nat
  second : Nat
  microsecond : Nat
deriving DecidableEq, Repr

/-- Python `datetime` comparison: lexicographic on the seven fields. -/
def dtLe (a b : PyDateTime) : Bool :=
  if a.year = b.year then
    if a.month = b.month then
      if a.day = b.day then
        if a.hour = b.hour then
          if a.minute = b.minute then
            if a.second = b.second then
              decide (a.microsecond ≤ b.microsecond)
            else decide (a.second < b.second)
          else decide (a.minute < b.minute)
        else decide (a.hour < b.hour)
      else decide (a.day < b.day)
    else decide (a.month < b.month)
  else decide (a.year < b.year)

/-! ### Severity model (`LogSplitter.SEVERITY_LEVELS`, `extract_severity`) -/

/-- `LogSplitter.SEVERITY_LEVELS` from src/logsplit.py, as an association
list in source order. -/
def SEVERITY_LEVELS : List (List Char × Nat) :=
  [(("TRACE").data, 0), (("DEBUG").data, 1), (("INFO").data, 2),
   (("WARN").data, 3), (("WARNING").data, 3), (("ERROR").data, 4),
   (("FATAL").data, 5), (("CRITICAL").data, 5)]

/-- Dictionary lookup in `SEVERITY_LEVELS` (`dict.get` without default). -/
def sevLookup (s : List Char) : Option Nat := SEVERITY_LEVELS.lookup s

/-- The alternatives of the severity regex
`\b(TRACE|DEBUG|INFO|WARN|WARNING|ERROR|FATAL|CRITICAL)\b`, in pattern
order. -/
def SEVERITY_TOKENS : List (List Char) :=
  [("TRACE").data, ("DEBUG").data, ("INFO").data, ("WARN").data,
   ("WARNING").data, ("ERROR").data, ("FATAL").data, ("CRITICAL").data]

/-- `\b` holds just before position `i` of the line, given that the
pattern's next character is a word character. -/
def wordBoundaryBefore (line : List Char) (i : Nat) : Bool :=
  if i = 0 then true
  else
    match line.get? (i - 1) with
    | some c => !isWordChar c
    | none => true

/-- `\b` holds just after position `j - 1`, given that the pattern's
previous character is a word character. -/
def wordBoundaryAfter (line : List Char) (j : Nat) : Bool :=
  match line.get? j with
  | some c => !isWordChar c
  | none => true

/-- The severity alternation matches token `tok` at position `i` of the
line: the window of `tok.length` characters starting at `i` equals `tok`
up to ASCII case (re.IGNORECASE), with word boundaries on both sides. -/
def wholeWordAt (line : List Char) (i : Nat) (tok : List Char) : Bool :=
  (((line.drop i).take tok.length).map Char.toUpper == tok)
    && wordBoundaryBefore line i
    && wordBoundaryAfter line (i + tok.length)

/-- At one scan position, the first alternative (in pattern order) that
completes a match, as the regex engine tries them. -/
def findTok (line : List Char) (i : Nat) : Option (List Char) :=
  SEVERITY_TOKENS.find? (fun tok => wholeWordAt line i tok)

/-- Left-to-right scan of `re.search`: try each start position in turn;
on a hit return `match.group(1).upper()`, the matched window uppercased. -/
def sevScan (line : List Char) : Nat → Nat → Option (List Char)
  | _, 0 => none
  | i, fuel + 1 =>
    match findTok line i with
    | some tok => some (((line.drop i).take tok.length).map Char.toUpper)
    | none => sevScan line (i + 1) fuel

/-- `LogSplitter.extract_severity` from src/logsplit.py: leftmost
case-insensitive whole-word severity token, uppercased; `none` when the
regex finds no match. -/
def extract_severity (line : List Char) : Option (List Char) :=
  sevScan line 0 line.length

/-! ### File-name derivation (`os.path` helpers, `strftime`) -/

/-- Decimal rendering of a natural number (`%d`), via fuelled division. -/
def natToCharsAux : Nat → Nat → List Char → List Char
  | 0, _, acc => acc
  | fuel + 1, n, acc =>
    if n < 10 then Char.ofNat (48 + n) :: acc
    else natToCharsAux fuel (n / 10) (Char.ofNat (48 + n % 10) :: acc)

def natToChars (n : Nat) : List Char := natToCharsAux (n + 1) n []

/-- Zero-pad a decimal rendering to width `w`, as the zero-padded
`strftime` directives do. -/
def padZ (w n : Nat) : List Char :=
  List.replicate (w - (natToChars n).length) '0' ++ natToChars n

/-- One `strftime` directive of the subset the program uses. -/
def strfDirective (c : Char) (d : PyDateTime) : List Char :=
  if c = 'Y' then padZ 4 d.year
  else if c = 'm' then padZ 2 d.month
  else if c = 'd' then padZ 2 d.day
  else if c = 'H' then padZ 2 d.hour
  else if c = 'M' then padZ 2 d.minute
  else if c = 'S' then padZ 2 d.second
  else ['%', c]

/-- Model of `datetime.strftime` over the directives the program uses. -/
def pyStrftime : List Char → PyDateTime → List Char
  | '%' :: c :: rest, d => strfDirective c d ++ pyStrftime rest d
  | c :: rest, d => c :: pyStrftime rest d
  | [], _ => []

/-- Model of `os.path.basename`: the part after the last `'/'`. -/
def pyBasename (p : List Char) : List Char :=
  (p.reverse.takeWhile (fun c => c != '/')).reverse

/-- Index of the last `'.'` of a name, when it has one. -/
def lastDotIdx (b : List Char) : Option Nat :=
  match b.reverse.findIdx? (fun c => c == '.') with
  | some k => some (b.length - 1 - k)
  | none => none

/-- Model of `os.path.splitext(...)[0]` on a basename: drop the final
extension unless every character before the last dot is itself a dot. -/
def splitextRoot (b : List Char) : List Char :=
  match lastDotIdx b with
  | none => b
  | some i => if (b.take i).all (fun c => c == '.') then b else b.take i

/-- `os.path.splitext(os.path.basename(log_file))[0]` from the two
splitter methods. -/
def baseNameNoExt (p : List Char) : List Char := splitextRoot (pyBasename p)

/-- Model of `os.path.join(dir, name)` for a relative `name`. -/
def pyJoin (dir name : List Char) : List Char :=
  if dir = [] then name
  else if dir.getLast? = some '/' then dir ++ name
  else dir ++ '/' :: name

/-- Output path derived in `LogSplitter.split_by_severity`
(src/logsplit.py lines 105-106). -/
def sev_output_file (output_dir log_file min_severity : List Char) : List Char :=
  pyJoin output_dir
    (baseNameNoExt log_file ++ ("_severity_").data ++ lowerStr min_severity
      ++ ("_and_above.log").data)

/-- Output path derived in `LogSplitter.split_by_timerange`
(src/logsplit.py lines 138-141). -/
def tr_output_file (output_dir log_file : List Char) (startT endT : PyDateTime) :
    List Char :=
  pyJoin output_dir
    (baseNameNoExt log_file ++ ("_timerange_").data
      ++ pyStrftime (("%Y%m%d_%H%M%S").data) startT ++ ("_to_").data
      ++ pyStrftime (("%Y%m%d_%H%M%S").data) endT ++ (".log").data)

/-! ### Filter engine, severity mode -/

/-- One input file: its path and its lines. -/
structure FileEntry where
  name : List Char
  lines : List (List Char)
deriving DecidableEq, Repr

/-- The per-line decision of the loop in `split_by_severity`
(src/logsplit.py lines 115-124): keep a line when its extracted severity
has `SEVERITY_LEVELS.get(severity, 0) >= min_level`, or when it has no
severity and `min_level <= 1`; `min_level` is
`SEVERITY_LEVELS.get(min_severity.upper(), 2)`. -/
def sevKeep (minSev line : List Char) : Bool :=
  match extract_severity line with
  | some s => decide ((sevLookup (upperStr minSev)).getD 2 ≤ (sevLookup s).getD 0)
  | none => decide ((sevLookup (upperStr minSev)).getD 2 ≤ 1)

/-- `LogSplitter.split_by_severity`: for each input file, write the kept
lines to the derived output file (counters and logging omitted). -/
def split_by_severity (files : List FileEntry) (minSev dir : List Char) :
    List FileEntry :=
  files.map (fun f => ⟨sev_output_file dir f.name minSev, f.lines.filter (sevKeep minSev)⟩)

/-! ### Timestamp pattern matching (`TIMESTAMP_PATTERNS`, `extract_timestamp`) -/

/-- Exactly `n` decimal digits at the head of the input (`\d{n}`). -/
def takeDigits : Nat → List Char → Option (List Char × List Char)
  | 0, cs => some ([], cs)
  | _ + 1, [] => none
  | n + 1, c :: cs =>
    if c.isDigit then (takeDigits n cs).map (fun p => (c :: p.1, p.2)) else none

/-- A required literal character. -/
def expectChar (x : Char) : List Char → Option (List Char)
  | [] => none
  | c :: cs => if c = x then some cs else none

/-- `\s+`: a nonempty maximal run of whitespace.  In every pattern and
format of the program the run is followed by a digit, so the greedy
maximal run is the regex behaviour. -/
def takeWs1 (cs : List Char) : Option (List Char × List Char) :=
  match cs.takeWhile pyIsSpace with
  | [] => none
  | w => some (w, cs.dropWhile pyIsSpace)

/-- The common tail `\d{2}:\d{2}:\d{2}(?:\.\d{3})?` of the three timestamp
patterns, anchored at the head of the input; returns the matched text and
the rest. -/
def matchHMS (cs : List Char) : Option (List Char × List Char) := do
  let (hh, r1) ← takeDigits 2 cs
  let r2 ← expectChar ':' r1
  let (mi, r3) ← takeDigits 2 r2
  let r4 ← expectChar ':' r3
  let (ss, r5) ← takeDigits 2 r4
  match expectChar '.' r5 with
  | some r6 =>
    match takeDigits 3 r6 with
    | some (f3, r7) => some (hh ++ ':' :: mi ++ ':' :: ss ++ '.' :: f3, r7)
    | none => some (hh ++ ':' :: mi ++ ':' :: ss, r5)
  | none => some (hh ++ ':' :: mi ++ ':' :: ss, r5)

/-- Pattern 1, `\d{4}-\d{2}-\d{2}\s+\d{2}:\d{2}:\d{2}(?:\.\d{3})?`,
anchored at the head of the input; returns the matched text. -/
def matchTs1At (cs : List Char) : Option (List Char) := do
  let (y, r1) ← takeDigits 4 cs
  let r2 ← expectChar '-' r1
  let (mo, r3) ← takeDigits 2 r2
  let r4 ← expectChar '-' r3
  let (da, r5) ← takeDigits 2 r4
  let (w, r6) ← takeWs1 r5
  let (t, _) ← matchHMS r6
  some (y ++ '-' :: mo ++ '-' :: da ++ w ++ t)

/-- Pattern 2, `\d{4}/\d{2}/\d{2}\s+\d{2}:\d{2}:\d{2}(?:\.\d{3})?`. -/
def matchTs2At (cs : List Char) : Option (List Char) := do
  let (y, r1) ← takeDigits 4 cs
  let r2 ← expectChar '/' r1
  let (mo, r3) ← takeDigits 2 r2
  let r4 ← expectChar '/' r3
  let (da, r5) ← takeDigits 2 r4
  let (w, r6) ← takeWs1 r5
  let (t, _) ← matchHMS r6
  some (y ++ '/' :: mo ++ '/' :: da ++ w ++ t)

/-- Pattern 3, `\d{2}/\d{2}/\d{4}\s+\d{2}:\d{2}:\d{2}(?:\.\d{3})?`. -/
def matchTs3At (cs : List Char) : Option (List Char) := do
  let (mo, r1) ← takeDigits 2 cs
  let r2 ← expectChar '/' r1
  let (da, r3) ← takeDigits 2 r2
  let r4 ← expectChar '/' r3
  let (y, r5) ← takeDigits 4 r4
  let (w, r6) ← takeWs1 r5
  let (t, _) ← matchHMS r6
  some (mo ++ '/' :: da ++ '/' :: y ++ w ++ t)

/-- `re.search`: try the anchored matcher at each start position from the
left; the first position that matches wins. -/
def searchAux (m : List Char → Option (List Char)) : List Char → Option (List Char)
  | [] => none
  | c :: rest =>
    match m (c :: rest) with
    | some s => some s
    | none => searchAux m rest

/-! ### `strptime` model

Every numeric field of the accepted formats is followed by a non-digit
literal, a whitespace run or the end of the string, so each field must
consume the entire maximal digit run at its position; the models below
use this (the regex built by `_strptime` needs no backtracking on these
formats). -/

/-- A one- or two-digit numeric field of `_strptime` (`%m`, `%d`, `%H`,
`%M`, `%S`): the maximal digit run, which must have length 1 or 2, with
the two-digit value in `[lo2, hi2]` and the one-digit value at least
`lo1`. -/
def numField (lo2 hi2 lo1 : Nat) (cs : List Char) : Option (Nat × List Char) :=
  let run := cs.takeWhile Char.isDigit
  let rest := cs.dropWhile Char.isDigit
  if run.length = 2 then
    let v := charsToNat run
    if lo2 ≤ v ∧ v ≤ hi2 then some (v, rest) else none
  else if run.length = 1 then
    let v := charsToNat run
    if lo1 ≤ v then some (v, rest) else none
  else none

/-- `%Y`: exactly four digits. -/
def yearField (cs : List Char) : Option (Nat × List Char) :=
  (takeDigits 4 cs).map (fun p => (charsToNat p.1, p.2))

/-- `%f`: one to six digits, right-padded to microseconds.  The formats
place `%f` last, so the rest must be empty for the parse to succeed. -/
def fracField (cs : List Char) : Option Nat :=
  let run := cs.takeWhile Char.isDigit
  let rest := cs.dropWhile Char.isDigit
  if 1 ≤ run.length ∧ run.length ≤ 6 ∧ rest = [] then
    some (charsToNat run * 10 ^ (6 - run.length))
  else none

/-- Days in a month of the proleptic Gregorian calendar, as
`datetime.date` validates. -/
def daysInMonth (y m : Nat) : Nat :=
  if m = 2 then
    if y % 4 = 0 ∧ (y % 100 ≠ 0 ∨ y % 400 = 0) then 29 else 28
  else if m = 4 ∨ m = 6 ∨ m = 9 ∨ m = 11 then 30
  else 31

/-- The `datetime` constructor's validation, applied by `strptime` to the
extracted fields. -/
def mkDT (y mo da h mi s f : Nat) : Option PyDateTime :=
  if 1 ≤ y ∧ y ≤ 9999 ∧ 1 ≤ mo ∧ mo ≤ 12 ∧ 1 ≤ da ∧ da ≤ daysInMonth y mo
      ∧ h ≤ 23 ∧ mi ≤ 59 ∧ s ≤ 59 ∧ f ≤ 999999 then
    some ⟨y, mo, da, h, mi, s, f⟩
  else none

/-- `%Y sep %m sep %d`: the date part shared by the year-first formats. -/
def dateYmd (sep : Char) (cs : List Char) : Option (Nat × Nat × Nat × List Char) := do
  let (y, r1) ← yearField cs
  let r2 ← expectChar sep r1
  let (mo, r3) ← numField 1 12 1 r2
  let r4 ← expectChar sep r3
  let (da, r5) ← numField 1 31 1 r4
  some (y, mo, da, r5)

/-- `%m/%d/%Y`: the date part of the month-first formats. -/
def dateMdy (cs : List Char) : Option (Nat × Nat × Nat × List Char) := do
  let (mo, r1) ← numField 1 12 1 cs
  let r2 ← expectChar '/' r1
  let (da, r3) ← numField 1 31 1 r2
  let r4 ← expectChar '/' r3
  let (y, r5) ← yearField r4
  some (y, mo, da, r5)

/-- `%H:%M:%S`. -/
def timeHMS (cs : List Char) : Option (Nat × Nat × Nat × List Char) := do
  let (h, r1) ← numField 0 23 0 cs
  let r2 ← expectChar ':' r1
  let (mi, r3) ← numField 0 59 0 r2
  let r4 ← expectChar ':' r3
  let (s, r5) ← numField 0 61 0 r4
  some (h, mi, s, r5)

/-- `strptime` with format `%Y{sep}%m{sep}%d %H:%M:%S.%f`. -/
def strpDateTimeFrac (sep : Char) (cs : List Char) : Option PyDateTime := do
  let (y, mo, da, r1) ← dateYmd sep cs
  let (_, r2) ← takeWs1 r1
  let (h, mi, s, r3) ← timeHMS r2
  let r4 ← expectChar '.' r3
  let f ← fracField r4
  mkDT y mo da h mi s f

/-- `strptime` with format `%Y{sep}%m{sep}%d %H:%M:%S`. -/
def strpDateTime (sep : Char) (cs : List Char) : Option PyDateTime := do
  let (y, mo, da, r1) ← dateYmd sep cs
  let (_, r2) ← takeWs1 r1
  let (h, mi, s, r3) ← timeHMS r2
  if r3 = [] then mkDT y mo da h mi s 0 else none

/-- `strptime` with format `%m/%d/%Y %H:%M:%S.%f`. -/
def strpMdyFrac (cs : List Char) : Option PyDateTime := do
  let (y, mo, da, r1) ← dateMdy cs
  let (_, r2) ← takeWs1 r1
  let (h, mi, s, r3) ← timeHMS r2
  let r4 ← expectChar '.' r3
  let f ← fracField r4
  mkDT y mo da h mi s f

/-- `strptime` with format `%m/%d/%Y %H:%M:%S`. -/
def strpMdy (cs : List Char) : Option PyDateTime := do
  let (y, mo, da, r1) ← dateMdy cs
  let (_, r2) ← takeWs1 r1
  let (h, mi, s, r3) ← timeHMS r2
  if r3 = [] then mkDT y mo da h mi s 0 else none

/-- `strptime` with format `%Y-%m-%d %H:%M`. -/
def strpDateHM (cs : List Char) : Option PyDateTime := do
  let (y, mo, da, r1) ← dateYmd '-' cs
  let (_, r2) ← takeWs1 r1
  let (h, r3) ← numField 0 23 0 r2
  let r4 ← expectChar ':' r3
  let (mi, r5) ← numField 0 59 0 r4
  if r5 = [] then mkDT y mo da h mi 0 0 else none

/-- `strptime` with format `%Y-%m-%d`. -/
def strpDateOnly (cs : List Char) : Option PyDateTime := do
  let (y, mo, da, r1) ← dateYmd '-' cs
  if r1 = [] then mkDT y mo da 0 0 0 0 else none

/-- The format cascade inside `extract_timestamp` (src/logsplit.py lines
71-84): the six formats tried in source order on the matched substring,
first success wins. -/
def tryFormats (s : List Char) : Option PyDateTime :=
  match strpDateTimeFrac '-' s with
  | some d => some d
  | none =>
  match strpDateTime '-' s with
  | some d => some d
  | none =>
  match strpDateTimeFrac '/' s with
  | some d => some d
  | none =>
  match strpDateTime '/' s with
  | some d => some d
  | none =>
  match strpMdyFrac s with
  | some d => some d
  | none => strpMdy s

/-- The pattern loop of `LogSplitter.extract_timestamp`: for each pattern
in order, if it matches somewhere in the line, try the formats on the
matched text; on success return, otherwise continue with the NEXT pattern
(the Python loop falls through to the next pattern when every format
fails). -/
def tsGo : List (List Char → Option (List Char)) → List Char → Option PyDateTime
  | [], _ => none
  | m :: ms, line =>
    match searchAux m line with
    | none => tsGo ms line
    | some s =>
      match tryFormats s with
      | some d => some d
      | none => tsGo ms line

/-- `LogSplitter.extract_timestamp` from src/logsplit.py. -/
def extract_timestamp (line : List Char) : Option PyDateTime :=
  tsGo [matchTs1At, matchTs2At, matchTs3At] line

/-- `parse_datetime` from src/logsplit.py lines 163-178: the four
boundary formats tried in order; `none` models the raised `ValueError`. -/
def parse_datetime (s : List Char) : Option PyDateTime :=
  match strpDateTimeFrac '-' s with
  | some d => some d
  | none =>
  match strpDateTime '-' s with
  | some d => some d
  | none =>
  match strpDateHM s with
  | some d => some d
  | none => strpDateOnly s

/-! ### Filter engine, time-range mode, and the combination driver -/

/-- The per-line decision of the loop in `split_by_timerange`
(src/logsplit.py lines 150-156): keep a line iff it has an extractable
timestamp `t` with `start_time <= t <= end_time`. -/
def timeKeep (startT endT : PyDateTime) (line : List Char) : Bool :=
  match extract_timestamp line with
  | some t => dtLe startT t && dtLe t endT
  | none => false

/-- `LogSplitter.split_by_timerange`: for each input file, write the kept
lines to the derived output file (counters and logging omitted). -/
def split_by_timerange (files : List FileEntry) (startT endT : PyDateTime)
    (dir : List Char) : List FileEntry :=
  files.map (fun f =>
    ⟨tr_output_file dir f.name startT endT, f.lines.filter (timeKeep startT endT)⟩)

/-- The scratch directory `os.path.join(args.output, 'temp')` of the
combined branch of `main`. -/
def temp_dir (outputDir : List Char) : List Char := pyJoin outputDir ("temp").data

/-- The combined branch of `main` (src/logsplit.py lines 244-256): a
time-range pass into the scratch directory, then a severity pass over the
files found there into the final output directory. -/
def main_combined (files : List FileEntry) (sev : List Char)
    (startT endT : PyDateTime) (outputDir : List Char) : List FileEntry :=
  split_by_severity (split_by_timerange files startT endT (temp_dir outputDir))
    sev outputDir

/-! ### Shape of the substrings produced by the timestamp patterns -/

/-- All characters are decimal digits. -/
def Digits (l : List Char) : Prop := ∀ c ∈ l, c.isDigit = true

/-- All characters are whitespace. -/
def Spaces (l : List Char) : Prop := ∀ c ∈ l, pyIsSpace c = true

/-- Shape of the text matched by the common tail
`\d{2}:\d{2}:\d{2}(?:\.\d{3})?` of the three patterns. -/
def HMSShape (t : List Char) : Prop :=
  ∃ hh mi ss fr, t = hh ++ ':' :: mi ++ ':' :: ss ++ fr ∧
    hh.length = 2 ∧ mi.length = 2 ∧ ss.length = 2 ∧
    Digits hh ∧ Digits mi ∧ Digits ss ∧
    (fr = [] ∨ ∃ f3, fr = '.' :: f3 ∧ f3.length = 3 ∧ Digits f3)

/-- The list does not begin with a digit (so a maximal digit run ends
right before it). -/
def NotDigitHead : List Char → Prop
  | [] => True
  | c :: _ => c.isDigit = false

/-- The list does not begin with whitespace. -/
def NotSpaceHead : List Char → Prop
  | [] => True
  | c :: _ => pyIsSpace c = false

/-! ### Spec-side literal readers for C6

These follow the spec's words: "the literal date-time value of the matched
substring", read directly from the digit fields of the three pattern
shapes (year-month-day for the first two, month-day-year for the third),
subject only to calendar validity. -/

/-- Literal reading of the common `HH:MM:SS[.fff]` tail. -/
def literalTime (y mo da : Nat) (r6 : List Char) : Option PyDateTime := do
  let (hh, r7) ← takeDigits 2 r6
  let r8 ← expectChar ':' r7
  let (mi, r9) ← takeDigits 2 r8
  let r10 ← expectChar ':' r9
  let (ss, r11) ← takeDigits 2 r10
  match expectChar '.' r11 with
  | some r12 =>
    match takeDigits 3 r12 with
    | some (f3, r13) =>
      if r13 = [] then
        mkDT y mo da (charsToNat hh) (charsToNat mi) (charsToNat ss)
          (charsToNat f3 * 1000)
      else none
    | none => none
  | none =>
    if r11 = [] then
      mkDT y mo da (charsToNat hh) (charsToNat mi) (charsToNat ss) 0
    else none

/-- Literal value of `YYYY{sep}MM{sep}DD <ws> HH:MM:SS[.fff]` text. -/
def literalYmd (sep : Char) (s : List Char) : Option PyDateTime := do
  let (y, r1) ← takeDigits 4 s
  let r2 ← expectChar sep r1
  let (mo, r3) ← takeDigits 2 r2
  let r4 ← expectChar sep r3
  let (da, r5) ← takeDigits 2 r4
  let (_, r6) ← takeWs1 r5
  literalTime (charsToNat y) (charsToNat mo) (charsToNat da) r6

/-- Literal value of `MM/DD/YYYY <ws> HH:MM:SS[.fff]` text. -/
def literalMdy (s : List Char) : Option PyDateTime := do
  let (mo, r1) ← takeDigits 2 s
  let r2 ← expectChar '/' r1
  let (da, r3) ← takeDigits 2 r2
  let r4 ← expectChar '/' r3
  let (y, r5) ← takeDigits 4 r4
  let (_, r6) ← takeWs1 r5
  literalTime (charsToNat y) (charsToNat mo) (charsToNat da) r6

/-- The literal date-time value of a substring matched by any of the
three timestamp patterns (the pattern families are distinguished by their
separators and field widths, so at most one reader applies). -/
def literalValue (s : List Char) : Option PyDateTime :=
  match literalYmd '-' s with
  | some d => some d
  | none =>
  match literalYmd '/' s with
  | some d => some d
  | none => literalMdy s

/-! ### C7: output naming convention -/

/-- Follows the spec's words: the `{YYYYMMDD_HHMMSS}` tag of the
time-range template, zero-padded fields in that order. -/
def specTimestampTag (d : PyDateTime) : List Char :=
  padZ 4 d.year ++ padZ 2 d.month ++ padZ 2 d.day ++
    '_' :: (padZ 2 d.hour ++ padZ 2 d.minute ++ padZ 2 d.second)

/-- Follows the spec's words: severity-mode template
`{input_base_name}_severity_{severity_lower}_and_above.log`. -/
def specSeverityFileName (base sevLower : List Char) : List Char :=
  base ++ ("_severity_").data ++ sevLower ++ ("_and_above.log").data

/-- Follows the spec's words: time-range template
`{input_base_name}_timerange_{YYYYMMDD_HHMMSS(start)}_to_{YYYYMMDD_HHMMSS(end)}.log`. -/
def specTimerangeFileName (base s e : List Char) : List Char :=
  base ++ ("_timerange_").data ++ s ++ ("_to_").data ++ e ++ (".log").data

/-! ### Theorems -/

theorem dtLe_refl (a : PyDateTime) : dtLe a a = true := by
  simp [dtLe]

example : extract_severity ("2025-06-28 09:30:05 error x").data = some (("ERROR").data) := by decide

example : extract_severity ("warning: low disk").data = some (("WARNING").data) := by decide

example : extract_severity ("no level here").data = none := by decide

example : extract_severity ("INFOS warn").data = some (("WARN").data) := by decide

theorem token_nonempty {tok : List Char} (h : tok ∈ SEVERITY_TOKENS) :
    1 ≤ tok.length := by
  simp only [SEVERITY_TOKENS, List.mem_cons, List.not_mem_nil, or_false] at h
  rcases h with rfl | rfl | rfl | rfl | rfl | rfl | rfl | rfl <;> decide

theorem token_has_rank {tok : List Char} (h : tok ∈ SEVERITY_TOKENS) :
    ∃ r, sevLookup tok = some r := by
  simp only [SEVERITY_TOKENS, List.mem_cons, List.not_mem_nil, or_false] at h
  rcases h with rfl | rfl | rfl | rfl | rfl | rfl | rfl | rfl
  exacts [⟨0, by decide⟩, ⟨1, by decide⟩, ⟨2, by decide⟩, ⟨3, by decide⟩,
    ⟨3, by decide⟩, ⟨4, by decide⟩, ⟨5, by decide⟩, ⟨5, by decide⟩]

theorem wholeWordAt_window {line tok : List Char} {i : Nat}
    (h : wholeWordAt line i tok = true) :
    ((line.drop i).take tok.length).map Char.toUpper = tok := by
  simp only [wholeWordAt, Bool.and_eq_true, beq_iff_eq] at h
  exact h.1.1

theorem wholeWordAt_lt_length {line tok : List Char} {i : Nat}
    (htok : tok ∈ SEVERITY_TOKENS) (h : wholeWordAt line i tok = true) :
    i < line.length := by
  have hw := wholeWordAt_window h
  have hlen : (((line.drop i).take tok.length).map Char.toUpper).length = tok.length := by
    rw [hw]
  simp only [List.length_map, List.length_take, List.length_drop] at hlen
  have h1 := token_nonempty htok
  omega

theorem sevScan_eq_none (line : List Char) :
    ∀ fuel i, sevScan line i fuel = none ↔
      ∀ j, i ≤ j → j < i + fuel → findTok line j = none := by
  intro fuel
  induction fuel with
  | zero =>
    intro i
    simp only [sevScan, true_iff]
    intro j h1 h2; omega
  | succ n ih =>
    intro i
    simp only [sevScan]
    cases hf : findTok line i with
    | some tok =>
      constructor
      · intro h
        exact absurd h (by simp)
      · intro h
        have hnone := h i (le_refl i) (by omega)
        rw [hf] at hnone
        exact absurd hnone (by simp)
    | none =>
      rw [ih (i + 1)]
      constructor
      · intro h j h1 h2
        rcases Nat.eq_or_lt_of_le h1 with rfl | hlt
        · exact hf
        · exact h j hlt (by omega)
      · intro h j h1 h2
        exact h j (by omega) (by omega)

theorem sevScan_eq_some (line : List Char) :
    ∀ fuel i r, sevScan line i fuel = some r →
      ∃ j tok, i ≤ j ∧ j < i + fuel ∧
        (∀ k, i ≤ k → k < j → findTok line k = none) ∧
        findTok line j = some tok ∧
        r = ((line.drop j).take tok.length).map Char.toUpper := by
  intro fuel
  induction fuel with
  | zero => intro i r h; simp [sevScan] at h
  | succ n ih =>
    intro i r h
    simp only [sevScan] at h
    cases hf : findTok line i with
    | some tok =>
      rw [hf] at h
      refine ⟨i, tok, le_refl i, by omega, ?_, hf, ?_⟩
      · intro k h1 h2; omega
      · simpa using h.symm
    | none =>
      rw [hf] at h
      obtain ⟨j, tok, hj1, hj2, hpre, hfind, hr⟩ := ih (i + 1) r h
      refine ⟨j, tok, by omega, by omega, ?_, hfind, hr⟩
      intro k h1 h2
      rcases Nat.eq_or_lt_of_le h1 with rfl | hlt
      · exact hf
      · exact hpre k hlt h2

theorem findTok_eq_none_iff (line : List Char) (i : Nat) :
    findTok line i = none ↔
      ∀ tok ∈ SEVERITY_TOKENS, wholeWordAt line i tok = false := by
  simp only [findTok, List.find?_eq_none, Bool.not_eq_true]

/-- C5: for every line containing at least one whole-word case-insensitive
occurrence of a token from the severity set, `extract_severity` returns the
leftmost such occurrence converted to uppercase; WARN and WARNING map to the
same rank and FATAL and CRITICAL map to the same rank; for every line with
no such token it returns `none`. -/
theorem extract_severity_leftmost_token (line : List Char) :
    ((∀ i tok, tok ∈ SEVERITY_TOKENS → wholeWordAt line i tok = false) →
      extract_severity line = none)
  ∧ (∀ i tok, tok ∈ SEVERITY_TOKENS → wholeWordAt line i tok = true →
      ∃ j tok', tok' ∈ SEVERITY_TOKENS ∧ wholeWordAt line j tok' = true ∧ j ≤ i ∧
        (∀ k tk, tk ∈ SEVERITY_TOKENS → wholeWordAt line k tk = true → j ≤ k) ∧
        extract_severity line = some (((line.drop j).take tok'.length).map Char.toUpper) ∧
        ((line.drop j).take tok'.length).map Char.toUpper = tok')
  ∧ sevLookup (("WARN").data) = sevLookup (("WARNING").data)
  ∧ sevLookup (("FATAL").data) = sevLookup (("CRITICAL").data) := by
  refine ⟨?_, ?_, by decide, by decide⟩
  · intro h
    rw [extract_severity, sevScan_eq_none]
    intro j _ _
    exact (findTok_eq_none_iff line j).2 (fun tok htok => h j tok htok)
  · intro i tok htok hocc
    have hi : i < line.length := wholeWordAt_lt_length htok hocc
    have hfi : findTok line i ≠ none := by
      intro hn
      have := ((findTok_eq_none_iff line i).1 hn) tok htok
      rw [hocc] at this
      cases this
    cases hres : extract_severity line with
    | none =>
      rw [extract_severity, sevScan_eq_none] at hres
      exact absurd (hres i (Nat.zero_le i) (by omega)) hfi
    | some r =>
      obtain ⟨j, tok', hj1, hj2, hpre, hfind, hr⟩ :=
        sevScan_eq_some line line.length 0 r hres
      have htok' : tok' ∈ SEVERITY_TOKENS := List.mem_of_find?_eq_some hfind
      have hww : wholeWordAt line j tok' = true := List.find?_some hfind
      have hji : j ≤ i := by
        by_contra hc
        exact absurd (hpre i (Nat.zero_le i) (by omega)) hfi
      refine ⟨j, tok', htok', hww, hji, ?_, by rw [hr], wholeWordAt_window hww⟩
      intro k tk htk hocck
      by_contra hc
      have hn := hpre k (Nat.zero_le k) (by omega)
      have := ((findTok_eq_none_iff line k).1 hn) tk htk
      rw [hocck] at this
      cases this

/-- Concrete instance of the C5 theorem: in a lowercase line the leftmost
whole-word token "warning" is found and uppercased. -/
theorem extract_severity_leftmost_token_witness :
    ∃ j tok', tok' ∈ SEVERITY_TOKENS ∧
      wholeWordAt (("boot warning: error").data) j tok' = true ∧ j ≤ 5 ∧
      (∀ k tk, tk ∈ SEVERITY_TOKENS →
        wholeWordAt (("boot warning: error").data) k tk = true → j ≤ k) ∧
      extract_severity (("boot warning: error").data) =
        some ((((("boot warning: error").data).drop j).take tok'.length).map Char.toUpper) ∧
      (((("boot warning: error").data).drop j).take tok'.length).map Char.toUpper = tok' :=
  (extract_severity_leftmost_token (("boot warning: error").data)).2.1 5
    (("WARNING").data) (by decide) (by decide)

theorem sevKeep_of_some {minSev line s : List Char}
    (h : extract_severity line = some s) :
    sevKeep minSev line =
      decide ((sevLookup (upperStr minSev)).getD 2 ≤ (sevLookup s).getD 0) := by
  unfold sevKeep
  rw [h]

theorem sevKeep_of_none {minSev line : List Char}
    (h : extract_severity line = none) :
    sevKeep minSev line = decide ((sevLookup (upperStr minSev)).getD 2 ≤ 1) := by
  unfold sevKeep
  rw [h]

theorem extract_severity_mem_tokens {line s : List Char}
    (h : extract_severity line = some s) : s ∈ SEVERITY_TOKENS := by
  obtain ⟨j, tok, _, _, _, hfind, hr⟩ :=
    sevScan_eq_some line line.length 0 s h
  have := wholeWordAt_window (List.find?_some hfind)
  rw [hr, this]
  exact List.mem_of_find?_eq_some hfind

/-- C2: in severity mode a line of an input file is written to that file's
output iff its extracted severity has rank at least the requested
minimum's rank, or it has no extracted severity and the requested
minimum's rank is at most DEBUG's rank (1). -/
theorem split_by_severity_line_policy
    (files : List FileEntry) (minSev dir : List Char) (f : FileEntry)
    (hf : f ∈ files) (mr : Nat) (hmr : sevLookup (upperStr minSev) = some mr) :
    (FileEntry.mk (sev_output_file dir f.name minSev)
        (f.lines.filter (sevKeep minSev)) ∈ split_by_severity files minSev dir)
    ∧ sevLookup (("DEBUG").data) = some 1
    ∧ ∀ line, (sevKeep minSev line = true ↔
        (∃ s rs, extract_severity line = some s ∧ sevLookup s = some rs ∧ mr ≤ rs)
        ∨ (extract_severity line = none ∧ mr ≤ 1)) := by
  refine ⟨List.mem_map_of_mem _ hf, by decide, ?_⟩
  intro line
  cases hx : extract_severity line with
  | some s =>
    obtain ⟨rs, hrs⟩ := token_has_rank (extract_severity_mem_tokens hx)
    rw [sevKeep_of_some hx, hmr, hrs, decide_eq_true_eq]
    constructor
    · intro h
      exact Or.inl ⟨s, rs, rfl, hrs, h⟩
    · rintro (⟨s', rs', hs', hrs', hle⟩ | ⟨hnone, _⟩)
      · obtain rfl := Option.some.inj hs'
        rw [hrs] at hrs'
        obtain rfl := Option.some.inj hrs'
        exact hle
      · exact Option.noConfusion hnone
  | none =>
    rw [sevKeep_of_none hx, hmr, decide_eq_true_eq]
    constructor
    · intro h
      exact Or.inr ⟨rfl, h⟩
    · rintro (⟨s', rs', hs', hrs', hle⟩ | ⟨hn, hle⟩)
      · exact Option.noConfusion hs'
      · exact hle

/-- Concrete instance of the C2 theorem: with minimum WARN, the
line-keeping predicate agrees with the rank test on a sample file. -/
theorem split_by_severity_line_policy_witness :
    FileEntry.mk (sev_output_file ("out").data ("app.log").data ("WARN").data)
        ((FileEntry.mk ("app.log").data [("e ERROR").data, ("d debug").data]).lines.filter
          (sevKeep ("WARN").data))
      ∈ split_by_severity [⟨("app.log").data, [("e ERROR").data, ("d debug").data]⟩]
        ("WARN").data ("out").data :=
  (split_by_severity_line_policy
    [⟨("app.log").data, [("e ERROR").data, ("d debug").data]⟩]
    (("WARN").data) (("out").data)
    ⟨("app.log").data, [("e ERROR").data, ("d debug").data]⟩
    (by simp) 3 (by decide)).1

/-- C9: when the requested minimum severity is not one of the eight
recognized tokens, `split_by_severity` does not fail: it filters exactly
as it would for INFO (rank 2), while the unrecognized token's lowercase
form still appears in the derived output file name. -/
theorem split_by_severity_unrecognized_default
    (files : List FileEntry) (minSev dir : List Char)
    (h : sevLookup (upperStr minSev) = none) :
    (∀ line, sevKeep minSev line = sevKeep (("INFO").data) line)
    ∧ sevLookup (upperStr (("INFO").data)) = some 2
    ∧ split_by_severity files minSev dir = files.map (fun f =>
        ⟨pyJoin dir (baseNameNoExt f.name ++ ("_severity_").data
            ++ lowerStr minSev ++ ("_and_above.log").data),
          f.lines.filter (sevKeep minSev)⟩) := by
  refine ⟨?_, by decide, rfl⟩
  intro line
  cases hx : extract_severity line with
  | some s =>
    rw [sevKeep_of_some hx, sevKeep_of_some hx, h,
      show sevLookup (upperStr (("INFO").data)) = some 2 from by decide]
    rfl
  | none =>
    rw [sevKeep_of_none hx, sevKeep_of_none hx, h,
      show sevLookup (upperStr (("INFO").data)) = some 2 from by decide]
    rfl

/-- Concrete instance of the C9 theorem: the unrecognized token "VERBOSE"
filters exactly as INFO does. -/
theorem split_by_severity_unrecognized_default_witness :
    sevKeep (("VERBOSE").data) (("x warn y").data) =
      sevKeep (("INFO").data) (("x warn y").data) :=
  (split_by_severity_unrecognized_default [] (("VERBOSE").data) (("out").data)
    (by decide)).1 (("x warn y").data)

example : extract_timestamp (("x 2025-06-28 09:30:05 INFO ok").data) =
    some ⟨2025, 6, 28, 9, 30, 5, 0⟩ := by decide

example : extract_timestamp (("2025/06/28 09:30:05.123 y").data) =
    some ⟨2025, 6, 28, 9, 30, 5, 123000⟩ := by decide

example : extract_timestamp (("06/28/2025 23:59:59").data) =
    some ⟨2025, 6, 28, 23, 59, 59, 0⟩ := by decide

example : extract_timestamp (("no timestamp here").data) = none := by decide

example : extract_timestamp (("2025-02-30 10:00:00").data) = none := by decide

example : extract_timestamp (("2025-13-45 10:00:00 2025/06/28 11:00:00").data) =
    some ⟨2025, 6, 28, 11, 0, 0, 0⟩ := by decide

example : parse_datetime (("2025-06-28 09:30").data) =
    some ⟨2025, 6, 28, 9, 30, 0, 0⟩ := by decide

example : parse_datetime (("2025-06-28").data) =
    some ⟨2025, 6, 28, 0, 0, 0, 0⟩ := by decide

example : parse_datetime (("junk").data) = none := by decide

theorem timeKeep_of_some {startT endT : PyDateTime} {t : PyDateTime}
    {line : List Char} (h : extract_timestamp line = some t) :
    timeKeep startT endT line = (dtLe startT t && dtLe t endT) := by
  unfold timeKeep
  rw [h]

theorem timeKeep_of_none {startT endT : PyDateTime} {line : List Char}
    (h : extract_timestamp line = none) :
    timeKeep startT endT line = false := by
  unfold timeKeep
  rw [h]

/-- C3: in time-range mode a line is written iff `extract_timestamp`
yields a timestamp `t` with `start <= t <= end`, inclusive at both ends;
every line with no extractable timestamp is dropped. -/
theorem split_by_timerange_line_policy
    (files : List FileEntry) (startT endT : PyDateTime) (dir : List Char)
    (f : FileEntry) (hf : f ∈ files) :
    (FileEntry.mk (tr_output_file dir f.name startT endT)
        (f.lines.filter (timeKeep startT endT))
      ∈ split_by_timerange files startT endT dir)
    ∧ (∀ line, timeKeep startT endT line = true ↔
        ∃ t, extract_timestamp line = some t ∧ dtLe startT t = true ∧ dtLe t endT = true)
    ∧ (∀ line, extract_timestamp line = none → timeKeep startT endT line = false)
    ∧ (dtLe startT endT = true → ∀ line, extract_timestamp line = some startT →
        timeKeep startT endT line = true)
    ∧ (dtLe startT endT = true → ∀ line, extract_timestamp line = some endT →
        timeKeep startT endT line = true) := by
  refine ⟨List.mem_map_of_mem _ hf, ?_, ?_, ?_, ?_⟩
  · intro line
    cases hx : extract_timestamp line with
    | some t =>
      rw [timeKeep_of_some hx, Bool.and_eq_true]
      constructor
      · rintro ⟨ha, hb⟩
        exact ⟨t, rfl, ha, hb⟩
      · rintro ⟨t', ht', ha, hb⟩
        obtain rfl := Option.some.inj ht'
        exact ⟨ha, hb⟩
    | none =>
      rw [timeKeep_of_none hx]
      simp
  · intro line hx
    exact timeKeep_of_none hx
  · intro hse line hx
    rw [timeKeep_of_some hx, dtLe_refl]
    simp [hse]
  · intro hse line hx
    rw [timeKeep_of_some hx, dtLe_refl]
    simp [hse]

/-- Concrete instance of the C3 theorem: a line whose timestamp equals
the start boundary exactly is written. -/
theorem split_by_timerange_line_policy_witness :
    timeKeep ⟨2025, 6, 28, 9, 0, 0, 0⟩ ⟨2025, 6, 28, 9, 15, 0, 0⟩
      (("2025-06-28 09:00:00 INFO ok").data) = true :=
  (split_by_timerange_line_policy [⟨("a.log").data, []⟩]
    ⟨2025, 6, 28, 9, 0, 0, 0⟩ ⟨2025, 6, 28, 9, 15, 0, 0⟩ (("out").data)
    ⟨("a.log").data, []⟩ (by simp)).2.2.2.1 (by decide)
    (("2025-06-28 09:00:00 INFO ok").data) (by decide)

/-- C1: with both filters requested, the combined branch of `main`
produces, for every input file, an output whose lines are the time-range
filter applied to the original lines followed by the severity filter
applied to that intermediate result. -/
theorem main_combined_time_then_severity
    (files : List FileEntry) (sev : List Char) (startT endT : PyDateTime)
    (dir : List Char) :
    (main_combined files sev startT endT dir =
      split_by_severity (split_by_timerange files startT endT (temp_dir dir)) sev dir)
    ∧ ∀ f ∈ files, ∃ g ∈ main_combined files sev startT endT dir,
        g.lines = (f.lines.filter (timeKeep startT endT)).filter (sevKeep sev) := by
  refine ⟨rfl, ?_⟩
  intro f hf
  have h1 : FileEntry.mk (tr_output_file (temp_dir dir) f.name startT endT)
      (f.lines.filter (timeKeep startT endT))
      ∈ split_by_timerange files startT endT (temp_dir dir) :=
    List.mem_map_of_mem _ hf
  exact ⟨_, List.mem_map_of_mem _ h1, rfl⟩

/-- Concrete instance of the C1 theorem on a one-file input. -/
theorem main_combined_time_then_severity_witness :
    ∃ g ∈ main_combined
        [⟨("a.log").data, [("2025-06-28 09:05:00 ERROR x").data, ("junk INFO").data]⟩]
        (("ERROR").data) ⟨2025, 6, 28, 9, 0, 0, 0⟩ ⟨2025, 6, 28, 10, 0, 0, 0⟩
        (("out").data),
      g.lines = (([("2025-06-28 09:05:00 ERROR x").data, ("junk INFO").data]).filter
          (timeKeep ⟨2025, 6, 28, 9, 0, 0, 0⟩ ⟨2025, 6, 28, 10, 0, 0, 0⟩)).filter
        (sevKeep (("ERROR").data)) :=
  (main_combined_time_then_severity
    [⟨("a.log").data, [("2025-06-28 09:05:00 ERROR x").data, ("junk INFO").data]⟩]
    (("ERROR").data) ⟨2025, 6, 28, 9, 0, 0, 0⟩ ⟨2025, 6, 28, 10, 0, 0, 0⟩
    (("out").data)).2
    ⟨("a.log").data, [("2025-06-28 09:05:00 ERROR x").data, ("junk INFO").data]⟩
    (by simp)

/-- C10: each processed input file yields an output entry whose name is
the derived output file name, in both modes, even when zero of its lines
pass the filter (the output entry is present with empty contents rather
than absent). -/
theorem output_file_exists_per_input
    (files : List FileEntry) (minSev dir : List Char) (startT endT : PyDateTime)
    (f : FileEntry) (hf : f ∈ files) :
    ((split_by_severity files minSev dir).length = files.length)
    ∧ ((split_by_timerange files startT endT dir).length = files.length)
    ∧ (FileEntry.mk (sev_output_file dir f.name minSev)
        (f.lines.filter (sevKeep minSev)) ∈ split_by_severity files minSev dir)
    ∧ (FileEntry.mk (tr_output_file dir f.name startT endT)
        (f.lines.filter (timeKeep startT endT))
        ∈ split_by_timerange files startT endT dir)
    ∧ (f.lines.filter (sevKeep minSev) = [] →
        FileEntry.mk (sev_output_file dir f.name minSev) []
          ∈ split_by_severity files minSev dir)
    ∧ (f.lines.filter (timeKeep startT endT) = [] →
        FileEntry.mk (tr_output_file dir f.name startT endT) []
          ∈ split_by_timerange files startT endT dir) := by
  refine ⟨List.length_map _ _, List.length_map _ _,
    List.mem_map_of_mem _ hf, List.mem_map_of_mem _ hf, ?_, ?_⟩
  · intro hempty
    rw [← hempty]
    exact List.mem_map_of_mem _ hf
  · intro hempty
    rw [← hempty]
    exact List.mem_map_of_mem _ hf

/-- Concrete instance of the C10 theorem: a file none of whose lines pass
the ERROR filter still yields an (empty) output entry. -/
theorem output_file_exists_per_input_witness :
    FileEntry.mk (sev_output_file (("out").data) (("a.log").data) (("ERROR").data)) []
      ∈ split_by_severity [⟨("a.log").data, [("hello world").data]⟩]
        (("ERROR").data) (("out").data) :=
  (output_file_exists_per_input [⟨("a.log").data, [("hello world").data]⟩]
    (("ERROR").data) (("out").data) ⟨2025, 1, 1, 0, 0, 0, 0⟩ ⟨2025, 1, 2, 0, 0, 0, 0⟩
    ⟨("a.log").data, [("hello world").data]⟩ (by simp)).2.2.2.2.1 (by decide)

/-- C4 counterexample: on this line pattern 1 produces a regex match whose
substring fails every format, yet `extract_timestamp` does not return
`none`: it falls through to pattern 2 and returns its value. -/
theorem extract_timestamp_no_fallback_counterexample :
    searchAux matchTs1At (("2025-13-45 10:00:00 2025/06/28 11:00:00").data) =
      some (("2025-13-45 10:00:00").data)
    ∧ tryFormats (("2025-13-45 10:00:00").data) = none
    ∧ extract_timestamp (("2025-13-45 10:00:00 2025/06/28 11:00:00").data) =
        some ⟨2025, 6, 28, 11, 0, 0, 0⟩ :=
  ⟨by decide, by decide, by decide⟩

/-- C4 amended: when the first pattern produces a regex match whose
substring fails to parse under every format string, `extract_timestamp`
does not stop: it continues with the later patterns (pattern 2, then
pattern 3) exactly as the pattern loop does. -/
theorem extract_timestamp_fallback_amended (line s : List Char)
    (h1 : searchAux matchTs1At line = some s) (h2 : tryFormats s = none) :
    extract_timestamp line = tsGo [matchTs2At, matchTs3At] line := by
  unfold extract_timestamp
  simp only [tsGo, h1, h2]

/-- Concrete instance of the C4 amended theorem. -/
theorem extract_timestamp_fallback_amended_witness :
    extract_timestamp (("2025-13-45 10:00:00 2025/06/28 11:00:00").data) =
      tsGo [matchTs2At, matchTs3At]
        (("2025-13-45 10:00:00 2025/06/28 11:00:00").data) :=
  extract_timestamp_fallback_amended
    (("2025-13-45 10:00:00 2025/06/28 11:00:00").data)
    (("2025-13-45 10:00:00").data) (by decide) (by decide)

/-- C8: `parse_datetime` tries the four boundary formats in source order,
returns the value parsed by the first format that succeeds, and fails
(raises) iff the input parses under none of the four. -/
theorem parse_datetime_first_success (s : List Char) :
    (parse_datetime s = none ↔
      strpDateTimeFrac '-' s = none ∧ strpDateTime '-' s = none ∧
        strpDateHM s = none ∧ strpDateOnly s = none)
    ∧ (∀ d, strpDateTimeFrac '-' s = some d → parse_datetime s = some d)
    ∧ (strpDateTimeFrac '-' s = none → ∀ d, strpDateTime '-' s = some d →
        parse_datetime s = some d)
    ∧ (strpDateTimeFrac '-' s = none → strpDateTime '-' s = none →
        ∀ d, strpDateHM s = some d → parse_datetime s = some d)
    ∧ (strpDateTimeFrac '-' s = none → strpDateTime '-' s = none →
        strpDateHM s = none → parse_datetime s = strpDateOnly s) := by
  unfold parse_datetime
  cases h1 : strpDateTimeFrac '-' s <;>
    cases h2 : strpDateTime '-' s <;>
      cases h3 : strpDateHM s <;>
        simp_all

/-- Concrete instance of the C8 theorem: a date-only boundary string is
parsed by the fourth format after the first three fail. -/
theorem parse_datetime_first_success_witness :
    parse_datetime (("2025-06-28").data) = strpDateOnly (("2025-06-28").data) :=
  (parse_datetime_first_success (("2025-06-28").data)).2.2.2.2
    (by decide) (by decide) (by decide)

theorem takeDigits_eq_some :
    ∀ {n : Nat} {cs ds r : List Char}, takeDigits n cs = some (ds, r) →
      cs = ds ++ r ∧ ds.length = n ∧ Digits ds := by
  intro n
  induction n with
  | zero =>
    intro cs ds r h
    simp only [takeDigits, Option.some.injEq, Prod.mk.injEq] at h
    obtain ⟨rfl, rfl⟩ := h
    exact ⟨rfl, rfl, by intro c hc; cases hc⟩
  | succ m ih =>
    intro cs ds r h
    cases cs with
    | nil => simp [takeDigits] at h
    | cons c cs' =>
      simp only [takeDigits] at h
      by_cases hc : c.isDigit
      · rw [if_pos hc] at h
        cases hd : takeDigits m cs' with
        | none => rw [hd] at h; simp at h
        | some p =>
          rw [hd] at h
          simp only [Option.map_some', Option.some.injEq, Prod.mk.injEq] at h
          obtain ⟨rfl, rfl⟩ := h
          obtain ⟨he, hl, hdig⟩ := ih hd
          refine ⟨by rw [he]; rfl, by simp [hl], ?_⟩
          intro x hx
          rcases List.mem_cons.1 hx with rfl | hx'
          · exact hc
          · exact hdig x hx'
      · rw [if_neg hc] at h
        cases h

theorem expectChar_eq_some {x : Char} {cs r : List Char}
    (h : expectChar x cs = some r) : cs = x :: r := by
  cases cs with
  | nil => cases h
  | cons c cs' =>
    simp only [expectChar] at h
    by_cases hc : c = x
    · rw [if_pos hc] at h
      cases h
      rw [hc]
    · rw [if_neg hc] at h
      cases h

theorem takeWs1_eq_some {cs w r : List Char} (h : takeWs1 cs = some (w, r)) :
    cs = w ++ r ∧ w ≠ [] ∧ Spaces w := by
  unfold takeWs1 at h
  cases htw : cs.takeWhile pyIsSpace with
  | nil => rw [htw] at h; cases h
  | cons c l =>
    rw [htw] at h
    simp only [Option.some.injEq, Prod.mk.injEq] at h
    obtain ⟨rfl, rfl⟩ := h
    refine ⟨by rw [← htw]; exact (List.takeWhile_append_dropWhile _ _).symm,
      by simp, ?_⟩
    intro x hx
    exact List.mem_takeWhile_imp (htw ▸ hx)

theorem list_len2 {l : List Char} (h : l.length = 2) : ∃ a b, l = [a, b] := by
  match l, h with
  | [a, b], _ => exact ⟨a, b, rfl⟩

theorem list_len3 {l : List Char} (h : l.length = 3) : ∃ a b c, l = [a, b, c] := by
  match l, h with
  | [a, b, c], _ => exact ⟨a, b, c, rfl⟩

theorem list_len4 {l : List Char} (h : l.length = 4) : ∃ a b c d, l = [a, b, c, d] := by
  match l, h with
  | [a, b, c, d], _ => exact ⟨a, b, c, d, rfl⟩

theorem matchHMS_shape {cs t r : List Char} (h : matchHMS cs = some (t, r)) :
    HMSShape t := by
  simp only [matchHMS, Option.bind_eq_bind, Option.bind_eq_some, Prod.exists] at h
  obtain ⟨hh, r1, hhh, r2, hr2, mi, r3, hmi, r4, hr4, ss, r5, hss, hrest⟩ := h
  obtain ⟨-, hhl, hhd⟩ := takeDigits_eq_some hhh
  obtain ⟨-, hml, hmd⟩ := takeDigits_eq_some hmi
  obtain ⟨-, hsl, hsd⟩ := takeDigits_eq_some hss
  cases he : expectChar '.' r5 with
  | none =>
    rw [he] at hrest
    simp only [Option.some.injEq, Prod.mk.injEq] at hrest
    exact ⟨hh, mi, ss, [], by rw [← hrest.1, List.append_nil], hhl, hml, hsl,
      hhd, hmd, hsd, Or.inl rfl⟩
  | some r6 =>
    rw [he] at hrest
    cases hf : takeDigits 3 r6 with
    | none =>
      simp only [hf, Option.some.injEq, Prod.mk.injEq] at hrest
      exact ⟨hh, mi, ss, [], by rw [← hrest.1, List.append_nil], hhl, hml, hsl,
        hhd, hmd, hsd, Or.inl rfl⟩
    | some p =>
      obtain ⟨f3, r7⟩ := p
      simp only [hf, Option.some.injEq, Prod.mk.injEq] at hrest
      obtain ⟨-, hfl, hfd⟩ := takeDigits_eq_some hf
      exact ⟨hh, mi, ss, '.' :: f3, by rw [← hrest.1], hhl, hml, hsl,
        hhd, hmd, hsd, Or.inr ⟨f3, rfl, hfl, hfd⟩⟩

theorem matchTs1At_shape {cs s : List Char} (h : matchTs1At cs = some s) :
    ∃ y mo da w t, s = y ++ '-' :: mo ++ '-' :: da ++ w ++ t ∧
      y.length = 4 ∧ mo.length = 2 ∧ da.length = 2 ∧
      Digits y ∧ Digits mo ∧ Digits da ∧ w ≠ [] ∧ Spaces w ∧ HMSShape t := by
  simp only [matchTs1At, Option.bind_eq_bind, Option.bind_eq_some, Prod.exists] at h
  obtain ⟨y, r1, hy, r2, hr2, mo, r3, hmo, r4, hr4, da, r5, hda, w, r6, hw, t, r7,
    ht, hs⟩ := h
  obtain ⟨-, hyl, hyd⟩ := takeDigits_eq_some hy
  obtain ⟨-, hml, hmd⟩ := takeDigits_eq_some hmo
  obtain ⟨-, hdl, hdd⟩ := takeDigits_eq_some hda
  obtain ⟨-, hwne, hws⟩ := takeWs1_eq_some hw
  exact ⟨y, mo, da, w, t, (Option.some.inj hs).symm, hyl, hml, hdl, hyd, hmd, hdd,
    hwne, hws, matchHMS_shape ht⟩

theorem matchTs2At_shape {cs s : List Char} (h : matchTs2At cs = some s) :
    ∃ y mo da w t, s = y ++ '/' :: mo ++ '/' :: da ++ w ++ t ∧
      y.length = 4 ∧ mo.length = 2 ∧ da.length = 2 ∧
      Digits y ∧ Digits mo ∧ Digits da ∧ w ≠ [] ∧ Spaces w ∧ HMSShape t := by
  simp only [matchTs2At, Option.bind_eq_bind, Option.bind_eq_some, Prod.exists] at h
  obtain ⟨y, r1, hy, r2, hr2, mo, r3, hmo, r4, hr4, da, r5, hda, w, r6, hw, t, r7,
    ht, hs⟩ := h
  obtain ⟨-, hyl, hyd⟩ := takeDigits_eq_some hy
  obtain ⟨-, hml, hmd⟩ := takeDigits_eq_some hmo
  obtain ⟨-, hdl, hdd⟩ := takeDigits_eq_some hda
  obtain ⟨-, hwne, hws⟩ := takeWs1_eq_some hw
  exact ⟨y, mo, da, w, t, (Option.some.inj hs).symm, hyl, hml, hdl, hyd, hmd, hdd,
    hwne, hws, matchHMS_shape ht⟩

theorem matchTs3At_shape {cs s : List Char} (h : matchTs3At cs = some s) :
    ∃ mo da y w t, s = mo ++ '/' :: da ++ '/' :: y ++ w ++ t ∧
      y.length = 4 ∧ mo.length = 2 ∧ da.length = 2 ∧
      Digits y ∧ Digits mo ∧ Digits da ∧ w ≠ [] ∧ Spaces w ∧ HMSShape t := by
  simp only [matchTs3At, Option.bind_eq_bind, Option.bind_eq_some, Prod.exists] at h
  obtain ⟨mo, r1, hmo, r2, hr2, da, r3, hda, r4, hr4, y, r5, hy, w, r6, hw, t, r7,
    ht, hs⟩ := h
  obtain ⟨-, hyl, hyd⟩ := takeDigits_eq_some hy
  obtain ⟨-, hml, hmd⟩ := takeDigits_eq_some hmo
  obtain ⟨-, hdl, hdd⟩ := takeDigits_eq_some hda
  obtain ⟨-, hwne, hws⟩ := takeWs1_eq_some hw
  exact ⟨mo, da, y, w, t, (Option.some.inj hs).symm, hyl, hml, hdl, hyd, hmd, hdd,
    hwne, hws, matchHMS_shape ht⟩

theorem searchAux_some {m : List Char → Option (List Char)} :
    ∀ {line s : List Char}, searchAux m line = some s → ∃ cs, m cs = some s := by
  intro line
  induction line with
  | nil => intro s h; cases h
  | cons c rest ih =>
    intro s h
    simp only [searchAux] at h
    cases hm : m (c :: rest) with
    | some s' =>
      simp only [hm, Option.some.injEq] at h
      exact ⟨c :: rest, by rw [hm, h]⟩
    | none =>
      simp only [hm] at h
      exact ih h

/-! ### Character-class and run evaluation facts -/

theorem not_digit_of_space {c : Char} (h : pyIsSpace c = true) : c.isDigit = false := by
  simp only [pyIsSpace, Bool.or_eq_true, beq_iff_eq] at h
  rcases h with ((((rfl | rfl) | rfl) | rfl) | rfl) | rfl <;> decide

theorem not_space_of_digit {c : Char} (h : c.isDigit = true) : pyIsSpace c = false := by
  cases hc : pyIsSpace c
  · rfl
  · rw [not_digit_of_space hc] at h
    cases h

theorem notDigitHead_of_spaces {w rest : List Char} (hne : w ≠ []) (hw : Spaces w) :
    NotDigitHead (w ++ rest) := by
  cases w with
  | nil => exact absurd rfl hne
  | cons c w' => exact not_digit_of_space (hw c (by simp))

theorem notSpaceHead_of_digit {c : Char} {l : List Char} (h : c.isDigit = true) :
    NotSpaceHead (c :: l) :=
  not_space_of_digit h

theorem digitRun_stop {r : List Char} (h : NotDigitHead r) :
    r.takeWhile Char.isDigit = [] ∧ r.dropWhile Char.isDigit = r := by
  cases r with
  | nil => exact ⟨rfl, rfl⟩
  | cons c l =>
    have hc : c.isDigit = false := h
    rw [List.takeWhile_cons, List.dropWhile_cons]
    simp [hc]

theorem spaceRun_append {w r : List Char} (hw : Spaces w) (hr : NotSpaceHead r) :
    (w ++ r).takeWhile pyIsSpace = w ∧ (w ++ r).dropWhile pyIsSpace = r := by
  induction w with
  | nil =>
    simp only [List.nil_append]
    cases r with
    | nil => exact ⟨rfl, rfl⟩
    | cons c l =>
      have hc : pyIsSpace c = false := hr
      rw [List.takeWhile_cons, List.dropWhile_cons]
      simp [hc]
  | cons c w' ih =>
    have hc : pyIsSpace c = true := hw c (by simp)
    have hw' : Spaces w' := fun x hx => hw x (List.mem_cons_of_mem _ hx)
    obtain ⟨h1, h2⟩ := ih hw'
    rw [List.cons_append, List.takeWhile_cons, List.dropWhile_cons]
    simp [hc, h1, h2]

theorem takeWs1_append {w r : List Char} (hne : w ≠ []) (hw : Spaces w)
    (hr : NotSpaceHead r) : takeWs1 (w ++ r) = some (w, r) := by
  obtain ⟨h1, h2⟩ := spaceRun_append hw hr
  unfold takeWs1
  rw [h1, h2]
  cases w with
  | nil => exact absurd rfl hne
  | cons c w' => rfl

theorem expectChar_self {x : Char} {r : List Char} : expectChar x (x :: r) = some r := by
  simp [expectChar]

theorem expectChar_ne {x c : Char} {r : List Char} (h : c ≠ x) :
    expectChar x (c :: r) = none := by
  simp [expectChar, h]

theorem takeDigits2_eval {a b : Char} {r : List Char}
    (ha : a.isDigit = true) (hb : b.isDigit = true) :
    takeDigits 2 (a :: b :: r) = some ([a, b], r) := by
  simp [takeDigits, ha, hb]

theorem takeDigits3_eval {a b c : Char} {r : List Char}
    (ha : a.isDigit = true) (hb : b.isDigit = true) (hc : c.isDigit = true) :
    takeDigits 3 (a :: b :: c :: r) = some ([a, b, c], r) := by
  simp [takeDigits, ha, hb, hc]

theorem takeDigits4_eval {a b c d : Char} {r : List Char}
    (ha : a.isDigit = true) (hb : b.isDigit = true) (hc : c.isDigit = true)
    (hd : d.isDigit = true) :
    takeDigits 4 (a :: b :: c :: d :: r) = some ([a, b, c, d], r) := by
  simp [takeDigits, ha, hb, hc, hd]

theorem yearField_eval {a b c d : Char} {r : List Char}
    (ha : a.isDigit = true) (hb : b.isDigit = true) (hc : c.isDigit = true)
    (hd : d.isDigit = true) :
    yearField (a :: b :: c :: d :: r) = some (charsToNat [a, b, c, d], r) := by
  simp [yearField, takeDigits4_eval ha hb hc hd]

theorem yearField_stop2 {a b c : Char} {r : List Char}
    (ha : a.isDigit = true) (hb : b.isDigit = true) (hc : c.isDigit = false) :
    yearField (a :: b :: c :: r) = none := by
  simp [yearField, takeDigits, ha, hb, hc]

theorem numField2_eval {lo2 hi2 lo1 : Nat} {a b : Char} {r : List Char}
    (ha : a.isDigit = true) (hb : b.isDigit = true) (hr : NotDigitHead r) :
    numField lo2 hi2 lo1 (a :: b :: r) =
      if lo2 ≤ charsToNat [a, b] ∧ charsToNat [a, b] ≤ hi2
      then some (charsToNat [a, b], r) else none := by
  obtain ⟨h1, h2⟩ := digitRun_stop hr
  simp [numField, List.takeWhile_cons, List.dropWhile_cons, ha, hb, h1, h2]

theorem numField_run4_none {lo2 hi2 lo1 : Nat} {a b c d : Char} {r : List Char}
    (ha : a.isDigit = true) (hb : b.isDigit = true) (hc : c.isDigit = true)
    (hd : d.isDigit = true) (hr : NotDigitHead r) :
    numField lo2 hi2 lo1 (a :: b :: c :: d :: r) = none := by
  obtain ⟨h1, h2⟩ := digitRun_stop hr
  simp [numField, List.takeWhile_cons, List.dropWhile_cons, ha, hb, hc, hd, h1, h2]

theorem fracField3_eval {f1 f2 f3 : Char}
    (h1 : f1.isDigit = true) (h2 : f2.isDigit = true) (h3 : f3.isDigit = true) :
    fracField [f1, f2, f3] = some (charsToNat [f1, f2, f3] * 1000) := by
  simp [fracField, List.takeWhile_cons, List.dropWhile_cons, h1, h2, h3]

theorem bind_ite_none {α β : Type} {c : Prop} [Decidable c] (x : α)
    (f : α → Option β) :
    (if c then some x else none).bind f = if c then f x else none := by
  split <;> simp

theorem ite_bind {α β : Type} {c : Prop} [Decidable c] (x y : Option α)
    (f : α → Option β) :
    (if c then x else y).bind f = if c then x.bind f else y.bind f := by
  split <;> rfl

theorem daysInMonth_le_31 (y m : Nat) : daysInMonth y m ≤ 31 := by
  unfold daysInMonth
  split_ifs <;> omega

theorem mkDT_eq_none {y mo da h mi s f : Nat}
    (hfail : mo < 1 ∨ 12 < mo ∨ da < 1 ∨ 31 < da ∨ 23 < h ∨ 59 < mi ∨ 59 < s) :
    mkDT y mo da h mi s f = none := by
  have hd := daysInMonth_le_31 y mo
  unfold mkDT
  split
  · exfalso
    omega
  · rfl

theorem ite_fields_mkDT {y mo da h mi s f : Nat} :
    (if 1 ≤ mo ∧ mo ≤ 12 then
      if 1 ≤ da ∧ da ≤ 31 then
        if 0 ≤ h ∧ h ≤ 23 then
          if 0 ≤ mi ∧ mi ≤ 59 then
            if 0 ≤ s ∧ s ≤ 61 then mkDT y mo da h mi s f else none
          else none
        else none
      else none
    else none) = mkDT y mo da h mi s f := by
  split_ifs <;> first | rfl | exact (mkDT_eq_none (by omega)).symm

theorem notDigitHead_cons {c : Char} {l : List Char} (h : c.isDigit = false) :
    NotDigitHead (c :: l) := h

theorem notDigitHead_nil : NotDigitHead [] := trivial

theorem ndh_colon {l : List Char} : NotDigitHead (':' :: l) :=
  notDigitHead_cons (by decide)

theorem ndh_dot {l : List Char} : NotDigitHead ('.' :: l) :=
  notDigitHead_cons (by decide)

theorem ndh_slash {l : List Char} : NotDigitHead ('/' :: l) :=
  notDigitHead_cons (by decide)

theorem ndh_dash {l : List Char} : NotDigitHead ('-' :: l) :=
  notDigitHead_cons (by decide)

theorem expectChar_nil {x : Char} : expectChar x [] = none := rfl

theorem takeDigits4_stop2 {a b c : Char} {r : List Char}
    (ha : a.isDigit = true) (hb : b.isDigit = true) (hc : c.isDigit = false) :
    takeDigits 4 (a :: b :: c :: r) = none := by
  simp [takeDigits, ha, hb, hc]

theorem ne_of_digit_of_not {c x : Char} (hc : c.isDigit = true)
    (hx : x.isDigit = false) : c ≠ x := by
  intro h
  subst h
  rw [hc] at hx
  cases hx

theorem dateYmd_eval {sep : Char} (hsep : sep.isDigit = false)
    {y1 y2 y3 y4 m1 m2 d1 d2 : Char} {R : List Char}
    (hy1 : y1.isDigit = true) (hy2 : y2.isDigit = true) (hy3 : y3.isDigit = true)
    (hy4 : y4.isDigit = true) (hm1 : m1.isDigit = true) (hm2 : m2.isDigit = true)
    (hd1 : d1.isDigit = true) (hd2 : d2.isDigit = true) (hR : NotDigitHead R) :
    dateYmd sep (y1 :: y2 :: y3 :: y4 :: sep :: m1 :: m2 :: sep :: d1 :: d2 :: R) =
      if 1 ≤ charsToNat [m1, m2] ∧ charsToNat [m1, m2] ≤ 12 then
        if 1 ≤ charsToNat [d1, d2] ∧ charsToNat [d1, d2] ≤ 31 then
          some (charsToNat [y1, y2, y3, y4], charsToNat [m1, m2],
            charsToNat [d1, d2], R)
        else none
      else none := by
  simp only [dateYmd, Option.bind_eq_bind, yearField_eval hy1 hy2 hy3 hy4,
    Option.some_bind, expectChar_self,
    numField2_eval hm1 hm2 (notDigitHead_cons hsep), bind_ite_none,
    numField2_eval hd1 hd2 hR]

theorem dateMdy_eval {m1 m2 d1 d2 y1 y2 y3 y4 : Char} {R : List Char}
    (hm1 : m1.isDigit = true) (hm2 : m2.isDigit = true)
    (hd1 : d1.isDigit = true) (hd2 : d2.isDigit = true)
    (hy1 : y1.isDigit = true) (hy2 : y2.isDigit = true) (hy3 : y3.isDigit = true)
    (hy4 : y4.isDigit = true) :
    dateMdy (m1 :: m2 :: '/' :: d1 :: d2 :: '/' :: y1 :: y2 :: y3 :: y4 :: R) =
      if 1 ≤ charsToNat [m1, m2] ∧ charsToNat [m1, m2] ≤ 12 then
        if 1 ≤ charsToNat [d1, d2] ∧ charsToNat [d1, d2] ≤ 31 then
          some (charsToNat [y1, y2, y3, y4], charsToNat [m1, m2],
            charsToNat [d1, d2], R)
        else none
      else none := by
  simp only [dateMdy, Option.bind_eq_bind,
    numField2_eval hm1 hm2 ndh_slash, bind_ite_none,
    expectChar_self, numField2_eval hd1 hd2 ndh_slash,
    yearField_eval hy1 hy2 hy3 hy4, Option.some_bind]

theorem dateYmd_fail_sep {sep' sep : Char} (hne : sep ≠ sep')
    {y1 y2 y3 y4 : Char} {R : List Char}
    (hy1 : y1.isDigit = true) (hy2 : y2.isDigit = true) (hy3 : y3.isDigit = true)
    (hy4 : y4.isDigit = true) :
    dateYmd sep' (y1 :: y2 :: y3 :: y4 :: sep :: R) = none := by
  simp only [dateYmd, Option.bind_eq_bind, yearField_eval hy1 hy2 hy3 hy4,
    Option.some_bind, expectChar_ne hne, Option.none_bind]

theorem dateYmd_fail_shortYear {sep' : Char} {m1 m2 c : Char} {R : List Char}
    (hm1 : m1.isDigit = true) (hm2 : m2.isDigit = true) (hc : c.isDigit = false) :
    dateYmd sep' (m1 :: m2 :: c :: R) = none := by
  simp only [dateYmd, Option.bind_eq_bind, yearField_stop2 hm1 hm2 hc,
    Option.none_bind]

theorem dateMdy_fail_run4 {y1 y2 y3 y4 c : Char} {R : List Char}
    (hy1 : y1.isDigit = true) (hy2 : y2.isDigit = true) (hy3 : y3.isDigit = true)
    (hy4 : y4.isDigit = true) (hc : c.isDigit = false) :
    dateMdy (y1 :: y2 :: y3 :: y4 :: c :: R) = none := by
  simp only [dateMdy, Option.bind_eq_bind,
    numField_run4_none hy1 hy2 hy3 hy4 (notDigitHead_cons hc), Option.none_bind]

theorem timeHMS_eval {a b i1 i2 s1 s2 : Char} {R : List Char}
    (ha : a.isDigit = true) (hb : b.isDigit = true)
    (hi1 : i1.isDigit = true) (hi2 : i2.isDigit = true)
    (hs1 : s1.isDigit = true) (hs2 : s2.isDigit = true) (hR : NotDigitHead R) :
    timeHMS (a :: b :: ':' :: i1 :: i2 :: ':' :: s1 :: s2 :: R) =
      if 0 ≤ charsToNat [a, b] ∧ charsToNat [a, b] ≤ 23 then
        if 0 ≤ charsToNat [i1, i2] ∧ charsToNat [i1, i2] ≤ 59 then
          if 0 ≤ charsToNat [s1, s2] ∧ charsToNat [s1, s2] ≤ 61 then
            some (charsToNat [a, b], charsToNat [i1, i2], charsToNat [s1, s2], R)
          else none
        else none
      else none := by
  simp only [timeHMS, Option.bind_eq_bind, Option.some_bind,
    numField2_eval ha hb ndh_colon, bind_ite_none,
    expectChar_self, numField2_eval hi1 hi2 ndh_colon,
    numField2_eval hs1 hs2 hR]

theorem strpDateTimeFrac_eval {sep : Char} (hsep : sep.isDigit = false)
    {y1 y2 y3 y4 m1 m2 d1 d2 a b i1 i2 s1 s2 f1 f2 f3 : Char} {w : List Char}
    (hy1 : y1.isDigit = true) (hy2 : y2.isDigit = true) (hy3 : y3.isDigit = true)
    (hy4 : y4.isDigit = true) (hm1 : m1.isDigit = true) (hm2 : m2.isDigit = true)
    (hd1 : d1.isDigit = true) (hd2 : d2.isDigit = true)
    (ha : a.isDigit = true) (hb : b.isDigit = true)
    (hi1 : i1.isDigit = true) (hi2 : i2.isDigit = true)
    (hs1 : s1.isDigit = true) (hs2 : s2.isDigit = true)
    (hf1 : f1.isDigit = true) (hf2 : f2.isDigit = true) (hf3 : f3.isDigit = true)
    (hwne : w ≠ []) (hws : Spaces w) :
    strpDateTimeFrac sep (y1 :: y2 :: y3 :: y4 :: sep :: m1 :: m2 :: sep :: d1 :: d2 ::
        (w ++ (a :: b :: ':' :: i1 :: i2 :: ':' :: s1 :: s2 :: '.' :: f1 :: f2 :: f3 :: []))) =
      mkDT (charsToNat [y1, y2, y3, y4]) (charsToNat [m1, m2]) (charsToNat [d1, d2])
        (charsToNat [a, b]) (charsToNat [i1, i2]) (charsToNat [s1, s2])
        (charsToNat [f1, f2, f3] * 1000) := by
  simp only [strpDateTimeFrac, Option.bind_eq_bind,
    dateYmd_eval hsep hy1 hy2 hy3 hy4 hm1 hm2 hd1 hd2
      (notDigitHead_of_spaces hwne hws),
    ite_bind, Option.none_bind, takeWs1_append hwne hws (notSpaceHead_of_digit ha),
    Option.some_bind, timeHMS_eval ha hb hi1 hi2 hs1 hs2 ndh_dot,
    expectChar_self, fracField3_eval hf1 hf2 hf3]
  rw [ite_fields_mkDT]

theorem strpDateTime_nofrac_eval {sep : Char} (hsep : sep.isDigit = false)
    {y1 y2 y3 y4 m1 m2 d1 d2 a b i1 i2 s1 s2 : Char} {w : List Char}
    (hy1 : y1.isDigit = true) (hy2 : y2.isDigit = true) (hy3 : y3.isDigit = true)
    (hy4 : y4.isDigit = true) (hm1 : m1.isDigit = true) (hm2 : m2.isDigit = true)
    (hd1 : d1.isDigit = true) (hd2 : d2.isDigit = true)
    (ha : a.isDigit = true) (hb : b.isDigit = true)
    (hi1 : i1.isDigit = true) (hi2 : i2.isDigit = true)
    (hs1 : s1.isDigit = true) (hs2 : s2.isDigit = true)
    (hwne : w ≠ []) (hws : Spaces w) :
    strpDateTime sep (y1 :: y2 :: y3 :: y4 :: sep :: m1 :: m2 :: sep :: d1 :: d2 ::
        (w ++ (a :: b :: ':' :: i1 :: i2 :: ':' :: s1 :: s2 :: []))) =
      mkDT (charsToNat [y1, y2, y3, y4]) (charsToNat [m1, m2]) (charsToNat [d1, d2])
        (charsToNat [a, b]) (charsToNat [i1, i2]) (charsToNat [s1, s2]) 0 := by
  simp only [strpDateTime, Option.bind_eq_bind,
    dateYmd_eval hsep hy1 hy2 hy3 hy4 hm1 hm2 hd1 hd2
      (notDigitHead_of_spaces hwne hws),
    ite_bind, Option.none_bind, takeWs1_append hwne hws (notSpaceHead_of_digit ha),
    Option.some_bind, timeHMS_eval ha hb hi1 hi2 hs1 hs2 notDigitHead_nil]
  rw [if_pos trivial, ite_fields_mkDT]

theorem strpDateTimeFrac_nofrac_none {sep : Char} (hsep : sep.isDigit = false)
    {y1 y2 y3 y4 m1 m2 d1 d2 a b i1 i2 s1 s2 : Char} {w : List Char}
    (hy1 : y1.isDigit = true) (hy2 : y2.isDigit = true) (hy3 : y3.isDigit = true)
    (hy4 : y4.isDigit = true) (hm1 : m1.isDigit = true) (hm2 : m2.isDigit = true)
    (hd1 : d1.isDigit = true) (hd2 : d2.isDigit = true)
    (ha : a.isDigit = true) (hb : b.isDigit = true)
    (hi1 : i1.isDigit = true) (hi2 : i2.isDigit = true)
    (hs1 : s1.isDigit = true) (hs2 : s2.isDigit = true)
    (hwne : w ≠ []) (hws : Spaces w) :
    strpDateTimeFrac sep (y1 :: y2 :: y3 :: y4 :: sep :: m1 :: m2 :: sep :: d1 :: d2 ::
        (w ++ (a :: b :: ':' :: i1 :: i2 :: ':' :: s1 :: s2 :: []))) = none := by
  simp only [strpDateTimeFrac, Option.bind_eq_bind,
    dateYmd_eval hsep hy1 hy2 hy3 hy4 hm1 hm2 hd1 hd2
      (notDigitHead_of_spaces hwne hws),
    ite_bind, Option.none_bind, takeWs1_append hwne hws (notSpaceHead_of_digit ha),
    Option.some_bind, timeHMS_eval ha hb hi1 hi2 hs1 hs2 notDigitHead_nil,
    expectChar_nil, Option.none_bind, ite_self]

theorem strpDateTime_frac_none {sep : Char} (hsep : sep.isDigit = false)
    {y1 y2 y3 y4 m1 m2 d1 d2 a b i1 i2 s1 s2 f1 f2 f3 : Char} {w : List Char}
    (hy1 : y1.isDigit = true) (hy2 : y2.isDigit = true) (hy3 : y3.isDigit = true)
    (hy4 : y4.isDigit = true) (hm1 : m1.isDigit = true) (hm2 : m2.isDigit = true)
    (hd1 : d1.isDigit = true) (hd2 : d2.isDigit = true)
    (ha : a.isDigit = true) (hb : b.isDigit = true)
    (hi1 : i1.isDigit = true) (hi2 : i2.isDigit = true)
    (hs1 : s1.isDigit = true) (hs2 : s2.isDigit = true)
    (hwne : w ≠ []) (hws : Spaces w) :
    strpDateTime sep (y1 :: y2 :: y3 :: y4 :: sep :: m1 :: m2 :: sep :: d1 :: d2 ::
        (w ++ (a :: b :: ':' :: i1 :: i2 :: ':' :: s1 :: s2 :: '.' :: f1 :: f2 :: f3 :: []))) =
      none := by
  simp only [strpDateTime, Option.bind_eq_bind,
    dateYmd_eval hsep hy1 hy2 hy3 hy4 hm1 hm2 hd1 hd2
      (notDigitHead_of_spaces hwne hws),
    ite_bind, Option.none_bind, takeWs1_append hwne hws (notSpaceHead_of_digit ha),
    Option.some_bind, timeHMS_eval ha hb hi1 hi2 hs1 hs2 ndh_dot]
  simp [ite_self]

theorem strpMdyFrac_eval
    {m1 m2 d1 d2 y1 y2 y3 y4 a b i1 i2 s1 s2 f1 f2 f3 : Char} {w : List Char}
    (hm1 : m1.isDigit = true) (hm2 : m2.isDigit = true)
    (hd1 : d1.isDigit = true) (hd2 : d2.isDigit = true)
    (hy1 : y1.isDigit = true) (hy2 : y2.isDigit = true) (hy3 : y3.isDigit = true)
    (hy4 : y4.isDigit = true)
    (ha : a.isDigit = true) (hb : b.isDigit = true)
    (hi1 : i1.isDigit = true) (hi2 : i2.isDigit = true)
    (hs1 : s1.isDigit = true) (hs2 : s2.isDigit = true)
    (hf1 : f1.isDigit = true) (hf2 : f2.isDigit = true) (hf3 : f3.isDigit = true)
    (hwne : w ≠ []) (hws : Spaces w) :
    strpMdyFrac (m1 :: m2 :: '/' :: d1 :: d2 :: '/' :: y1 :: y2 :: y3 :: y4 ::
        (w ++ (a :: b :: ':' :: i1 :: i2 :: ':' :: s1 :: s2 :: '.' :: f1 :: f2 :: f3 :: []))) =
      mkDT (charsToNat [y1, y2, y3, y4]) (charsToNat [m1, m2]) (charsToNat [d1, d2])
        (charsToNat [a, b]) (charsToNat [i1, i2]) (charsToNat [s1, s2])
        (charsToNat [f1, f2, f3] * 1000) := by
  simp only [strpMdyFrac, Option.bind_eq_bind,
    dateMdy_eval hm1 hm2 hd1 hd2 hy1 hy2 hy3 hy4,
    ite_bind, Option.none_bind, takeWs1_append hwne hws (notSpaceHead_of_digit ha),
    Option.some_bind, timeHMS_eval ha hb hi1 hi2 hs1 hs2 ndh_dot,
    expectChar_self, fracField3_eval hf1 hf2 hf3]
  rw [ite_fields_mkDT]

theorem strpMdy_nofrac_eval
    {m1 m2 d1 d2 y1 y2 y3 y4 a b i1 i2 s1 s2 : Char} {w : List Char}
    (hm1 : m1.isDigit = true) (hm2 : m2.isDigit = true)
    (hd1 : d1.isDigit = true) (hd2 : d2.isDigit = true)
    (hy1 : y1.isDigit = true) (hy2 : y2.isDigit = true) (hy3 : y3.isDigit = true)
    (hy4 : y4.isDigit = true)
    (ha : a.isDigit = true) (hb : b.isDigit = true)
    (hi1 : i1.isDigit = true) (hi2 : i2.isDigit = true)
    (hs1 : s1.isDigit = true) (hs2 : s2.isDigit = true)
    (hwne : w ≠ []) (hws : Spaces w) :
    strpMdy (m1 :: m2 :: '/' :: d1 :: d2 :: '/' :: y1 :: y2 :: y3 :: y4 ::
        (w ++ (a :: b :: ':' :: i1 :: i2 :: ':' :: s1 :: s2 :: []))) =
      mkDT (charsToNat [y1, y2, y3, y4]) (charsToNat [m1, m2]) (charsToNat [d1, d2])
        (charsToNat [a, b]) (charsToNat [i1, i2]) (charsToNat [s1, s2]) 0 := by
  simp only [strpMdy, Option.bind_eq_bind,
    dateMdy_eval hm1 hm2 hd1 hd2 hy1 hy2 hy3 hy4,
    ite_bind, Option.none_bind, takeWs1_append hwne hws (notSpaceHead_of_digit ha),
    Option.some_bind, timeHMS_eval ha hb hi1 hi2 hs1 hs2 notDigitHead_nil]
  rw [if_pos trivial, ite_fields_mkDT]

theorem strpMdyFrac_nofrac_none
    {m1 m2 d1 d2 y1 y2 y3 y4 a b i1 i2 s1 s2 : Char} {w : List Char}
    (hm1 : m1.isDigit = true) (hm2 : m2.isDigit = true)
    (hd1 : d1.isDigit = true) (hd2 : d2.isDigit = true)
    (hy1 : y1.isDigit = true) (hy2 : y2.isDigit = true) (hy3 : y3.isDigit = true)
    (hy4 : y4.isDigit = true)
    (ha : a.isDigit = true) (hb : b.isDigit = true)
    (hi1 : i1.isDigit = true) (hi2 : i2.isDigit = true)
    (hs1 : s1.isDigit = true) (hs2 : s2.isDigit = true)
    (hwne : w ≠ []) (hws : Spaces w) :
    strpMdyFrac (m1 :: m2 :: '/' :: d1 :: d2 :: '/' :: y1 :: y2 :: y3 :: y4 ::
        (w ++ (a :: b :: ':' :: i1 :: i2 :: ':' :: s1 :: s2 :: []))) = none := by
  simp only [strpMdyFrac, Option.bind_eq_bind,
    dateMdy_eval hm1 hm2 hd1 hd2 hy1 hy2 hy3 hy4,
    ite_bind, Option.none_bind, takeWs1_append hwne hws (notSpaceHead_of_digit ha),
    Option.some_bind, timeHMS_eval ha hb hi1 hi2 hs1 hs2 notDigitHead_nil,
    expectChar_nil, Option.none_bind, ite_self]

theorem strpMdy_frac_none
    {m1 m2 d1 d2 y1 y2 y3 y4 a b i1 i2 s1 s2 f1 f2 f3 : Char} {w : List Char}
    (hm1 : m1.isDigit = true) (hm2 : m2.isDigit = true)
    (hd1 : d1.isDigit = true) (hd2 : d2.isDigit = true)
    (hy1 : y1.isDigit = true) (hy2 : y2.isDigit = true) (hy3 : y3.isDigit = true)
    (hy4 : y4.isDigit = true)
    (ha : a.isDigit = true) (hb : b.isDigit = true)
    (hi1 : i1.isDigit = true) (hi2 : i2.isDigit = true)
    (hs1 : s1.isDigit = true) (hs2 : s2.isDigit = true)
    (hwne : w ≠ []) (hws : Spaces w) :
    strpMdy (m1 :: m2 :: '/' :: d1 :: d2 :: '/' :: y1 :: y2 :: y3 :: y4 ::
        (w ++ (a :: b :: ':' :: i1 :: i2 :: ':' :: s1 :: s2 :: '.' :: f1 :: f2 :: f3 :: []))) =
      none := by
  simp only [strpMdy, Option.bind_eq_bind,
    dateMdy_eval hm1 hm2 hd1 hd2 hy1 hy2 hy3 hy4,
    ite_bind, Option.none_bind, takeWs1_append hwne hws (notSpaceHead_of_digit ha),
    Option.some_bind, timeHMS_eval ha hb hi1 hi2 hs1 hs2 ndh_dot]
  simp [ite_self]

theorem literalTime_eval_frac {y mo da : Nat} {a b i1 i2 s1 s2 f1 f2 f3 : Char}
    (ha : a.isDigit = true) (hb : b.isDigit = true)
    (hi1 : i1.isDigit = true) (hi2 : i2.isDigit = true)
    (hs1 : s1.isDigit = true) (hs2 : s2.isDigit = true)
    (hf1 : f1.isDigit = true) (hf2 : f2.isDigit = true) (hf3 : f3.isDigit = true) :
    literalTime y mo da
        (a :: b :: ':' :: i1 :: i2 :: ':' :: s1 :: s2 :: '.' :: f1 :: f2 :: f3 :: []) =
      mkDT y mo da (charsToNat [a, b]) (charsToNat [i1, i2]) (charsToNat [s1, s2])
        (charsToNat [f1, f2, f3] * 1000) := by
  simp only [literalTime, Option.bind_eq_bind, takeDigits2_eval ha hb,
    Option.some_bind, expectChar_self, takeDigits2_eval hi1 hi2,
    takeDigits2_eval hs1 hs2, takeDigits3_eval hf1 hf2 hf3]
  rw [if_pos trivial]

theorem literalTime_eval_nofrac {y mo da : Nat} {a b i1 i2 s1 s2 : Char}
    (ha : a.isDigit = true) (hb : b.isDigit = true)
    (hi1 : i1.isDigit = true) (hi2 : i2.isDigit = true)
    (hs1 : s1.isDigit = true) (hs2 : s2.isDigit = true) :
    literalTime y mo da (a :: b :: ':' :: i1 :: i2 :: ':' :: s1 :: s2 :: []) =
      mkDT y mo da (charsToNat [a, b]) (charsToNat [i1, i2]) (charsToNat [s1, s2]) 0 := by
  simp only [literalTime, Option.bind_eq_bind, takeDigits2_eval ha hb,
    Option.some_bind, expectChar_self, takeDigits2_eval hi1 hi2,
    takeDigits2_eval hs1 hs2, expectChar_nil]
  rw [if_pos trivial]

theorem literalYmd_eval {sep : Char} {y1 y2 y3 y4 m1 m2 d1 d2 : Char}
    {w T : List Char} {X : Option PyDateTime}
    (hy1 : y1.isDigit = true) (hy2 : y2.isDigit = true) (hy3 : y3.isDigit = true)
    (hy4 : y4.isDigit = true) (hm1 : m1.isDigit = true) (hm2 : m2.isDigit = true)
    (hd1 : d1.isDigit = true) (hd2 : d2.isDigit = true)
    (hwne : w ≠ []) (hws : Spaces w) (hTd : NotSpaceHead T)
    (hT : literalTime (charsToNat [y1, y2, y3, y4]) (charsToNat [m1, m2])
        (charsToNat [d1, d2]) T = X) :
    literalYmd sep (y1 :: y2 :: y3 :: y4 :: sep :: m1 :: m2 :: sep :: d1 :: d2 ::
      (w ++ T)) = X := by
  simp only [literalYmd, Option.bind_eq_bind, takeDigits4_eval hy1 hy2 hy3 hy4,
    Option.some_bind, expectChar_self, takeDigits2_eval hm1 hm2,
    takeDigits2_eval hd1 hd2, takeWs1_append hwne hws hTd, hT]

theorem literalMdy_eval {m1 m2 d1 d2 y1 y2 y3 y4 : Char}
    {w T : List Char} {X : Option PyDateTime}
    (hm1 : m1.isDigit = true) (hm2 : m2.isDigit = true)
    (hd1 : d1.isDigit = true) (hd2 : d2.isDigit = true)
    (hy1 : y1.isDigit = true) (hy2 : y2.isDigit = true) (hy3 : y3.isDigit = true)
    (hy4 : y4.isDigit = true)
    (hwne : w ≠ []) (hws : Spaces w) (hTd : NotSpaceHead T)
    (hT : literalTime (charsToNat [y1, y2, y3, y4]) (charsToNat [m1, m2])
        (charsToNat [d1, d2]) T = X) :
    literalMdy (m1 :: m2 :: '/' :: d1 :: d2 :: '/' :: y1 :: y2 :: y3 :: y4 ::
      (w ++ T)) = X := by
  simp only [literalMdy, Option.bind_eq_bind, takeDigits2_eval hm1 hm2,
    Option.some_bind, expectChar_self, takeDigits2_eval hd1 hd2,
    takeDigits4_eval hy1 hy2 hy3 hy4, takeWs1_append hwne hws hTd, hT]

theorem literalYmd_fail_sep {sep sep' : Char} (hne : sep ≠ sep')
    {y1 y2 y3 y4 : Char} {R : List Char}
    (hy1 : y1.isDigit = true) (hy2 : y2.isDigit = true) (hy3 : y3.isDigit = true)
    (hy4 : y4.isDigit = true) :
    literalYmd sep' (y1 :: y2 :: y3 :: y4 :: sep :: R) = none := by
  simp only [literalYmd, Option.bind_eq_bind, takeDigits4_eval hy1 hy2 hy3 hy4,
    Option.some_bind, expectChar_ne hne, Option.none_bind]

theorem literalYmd_fail_shortYear {sep' : Char} {m1 m2 c : Char} {R : List Char}
    (hm1 : m1.isDigit = true) (hm2 : m2.isDigit = true) (hc : c.isDigit = false) :
    literalYmd sep' (m1 :: m2 :: c :: R) = none := by
  simp only [literalYmd, Option.bind_eq_bind, takeDigits4_stop2 hm1 hm2 hc,
    Option.none_bind]

theorem literalMdy_fail_digit3 {a b c : Char} {R : List Char}
    (ha : a.isDigit = true) (hb : b.isDigit = true) (hc : c.isDigit = true) :
    literalMdy (a :: b :: c :: R) = none := by
  have hne : c ≠ '/' :=
    ne_of_digit_of_not hc (show ('/').isDigit = false from by decide)
  simp only [literalMdy, Option.bind_eq_bind, takeDigits2_eval ha hb,
    Option.some_bind, expectChar_ne hne, Option.none_bind]

theorem strpDTF_fail_sep {sep sep' : Char} (hne : sep ≠ sep')
    {y1 y2 y3 y4 : Char} {R : List Char}
    (hy1 : y1.isDigit = true) (hy2 : y2.isDigit = true) (hy3 : y3.isDigit = true)
    (hy4 : y4.isDigit = true) :
    strpDateTimeFrac sep' (y1 :: y2 :: y3 :: y4 :: sep :: R) = none := by
  simp only [strpDateTimeFrac, Option.bind_eq_bind,
    dateYmd_fail_sep hne hy1 hy2 hy3 hy4, Option.none_bind]

theorem strpDT_fail_sep {sep sep' : Char} (hne : sep ≠ sep')
    {y1 y2 y3 y4 : Char} {R : List Char}
    (hy1 : y1.isDigit = true) (hy2 : y2.isDigit = true) (hy3 : y3.isDigit = true)
    (hy4 : y4.isDigit = true) :
    strpDateTime sep' (y1 :: y2 :: y3 :: y4 :: sep :: R) = none := by
  simp only [strpDateTime, Option.bind_eq_bind,
    dateYmd_fail_sep hne hy1 hy2 hy3 hy4, Option.none_bind]

theorem strpDTF_fail_shortYear {sep' : Char} {m1 m2 c : Char} {R : List Char}
    (hm1 : m1.isDigit = true) (hm2 : m2.isDigit = true) (hc : c.isDigit = false) :
    strpDateTimeFrac sep' (m1 :: m2 :: c :: R) = none := by
  simp only [strpDateTimeFrac, Option.bind_eq_bind,
    dateYmd_fail_shortYear hm1 hm2 hc, Option.none_bind]

theorem strpDT_fail_shortYear {sep' : Char} {m1 m2 c : Char} {R : List Char}
    (hm1 : m1.isDigit = true) (hm2 : m2.isDigit = true) (hc : c.isDigit = false) :
    strpDateTime sep' (m1 :: m2 :: c :: R) = none := by
  simp only [strpDateTime, Option.bind_eq_bind,
    dateYmd_fail_shortYear hm1 hm2 hc, Option.none_bind]

theorem strpMdyFrac_fail_run4 {y1 y2 y3 y4 c : Char} {R : List Char}
    (hy1 : y1.isDigit = true) (hy2 : y2.isDigit = true) (hy3 : y3.isDigit = true)
    (hy4 : y4.isDigit = true) (hc : c.isDigit = false) :
    strpMdyFrac (y1 :: y2 :: y3 :: y4 :: c :: R) = none := by
  simp only [strpMdyFrac, Option.bind_eq_bind,
    dateMdy_fail_run4 hy1 hy2 hy3 hy4 hc, Option.none_bind]

theorem strpMdy_fail_run4 {y1 y2 y3 y4 c : Char} {R : List Char}
    (hy1 : y1.isDigit = true) (hy2 : y2.isDigit = true) (hy3 : y3.isDigit = true)
    (hy4 : y4.isDigit = true) (hc : c.isDigit = false) :
    strpMdy (y1 :: y2 :: y3 :: y4 :: c :: R) = none := by
  simp only [strpMdy, Option.bind_eq_bind,
    dateMdy_fail_run4 hy1 hy2 hy3 hy4 hc, Option.none_bind]

theorem tryLit1_frac {y1 y2 y3 y4 m1 m2 d1 d2 a b i1 i2 s1 s2 f1 f2 f3 : Char}
    {w : List Char}
    (hy1 : y1.isDigit = true) (hy2 : y2.isDigit = true) (hy3 : y3.isDigit = true)
    (hy4 : y4.isDigit = true) (hm1 : m1.isDigit = true) (hm2 : m2.isDigit = true)
    (hd1 : d1.isDigit = true) (hd2 : d2.isDigit = true)
    (ha : a.isDigit = true) (hb : b.isDigit = true)
    (hi1 : i1.isDigit = true) (hi2 : i2.isDigit = true)
    (hs1 : s1.isDigit = true) (hs2 : s2.isDigit = true)
    (hf1 : f1.isDigit = true) (hf2 : f2.isDigit = true) (hf3 : f3.isDigit = true)
    (hwne : w ≠ []) (hws : Spaces w) :
    tryFormats (y1 :: y2 :: y3 :: y4 :: '-' :: m1 :: m2 :: '-' :: d1 :: d2 ::
        (w ++ (a :: b :: ':' :: i1 :: i2 :: ':' :: s1 :: s2 :: '.' :: f1 :: f2 :: f3 :: []))) =
      literalValue (y1 :: y2 :: y3 :: y4 :: '-' :: m1 :: m2 :: '-' :: d1 :: d2 ::
        (w ++ (a :: b :: ':' :: i1 :: i2 :: ':' :: s1 :: s2 :: '.' :: f1 :: f2 :: f3 :: []))) := by
  have hdd : ('-').isDigit = false := by decide
  have hds : ('-' : Char) ≠ '/' := by decide
  unfold tryFormats literalValue
  rw [strpDateTimeFrac_eval hdd hy1 hy2 hy3 hy4 hm1 hm2 hd1 hd2 ha hb hi1 hi2
      hs1 hs2 hf1 hf2 hf3 hwne hws,
    strpDateTime_frac_none hdd hy1 hy2 hy3 hy4 hm1 hm2 hd1 hd2 ha hb hi1 hi2
      hs1 hs2 hwne hws,
    strpDTF_fail_sep hds hy1 hy2 hy3 hy4, strpDT_fail_sep hds hy1 hy2 hy3 hy4,
    strpMdyFrac_fail_run4 hy1 hy2 hy3 hy4 hdd, strpMdy_fail_run4 hy1 hy2 hy3 hy4 hdd,
    literalYmd_eval hy1 hy2 hy3 hy4 hm1 hm2 hd1 hd2 hwne hws
      (notSpaceHead_of_digit ha)
      (literalTime_eval_frac ha hb hi1 hi2 hs1 hs2 hf1 hf2 hf3),
    literalYmd_fail_sep hds hy1 hy2 hy3 hy4, literalMdy_fail_digit3 hy1 hy2 hy3]

theorem tryLit1_nofrac {y1 y2 y3 y4 m1 m2 d1 d2 a b i1 i2 s1 s2 : Char}
    {w : List Char}
    (hy1 : y1.isDigit = true) (hy2 : y2.isDigit = true) (hy3 : y3.isDigit = true)
    (hy4 : y4.isDigit = true) (hm1 : m1.isDigit = true) (hm2 : m2.isDigit = true)
    (hd1 : d1.isDigit = true) (hd2 : d2.isDigit = true)
    (ha : a.isDigit = true) (hb : b.isDigit = true)
    (hi1 : i1.isDigit = true) (hi2 : i2.isDigit = true)
    (hs1 : s1.isDigit = true) (hs2 : s2.isDigit = true)
    (hwne : w ≠ []) (hws : Spaces w) :
    tryFormats (y1 :: y2 :: y3 :: y4 :: '-' :: m1 :: m2 :: '-' :: d1 :: d2 ::
        (w ++ (a :: b :: ':' :: i1 :: i2 :: ':' :: s1 :: s2 :: []))) =
      literalValue (y1 :: y2 :: y3 :: y4 :: '-' :: m1 :: m2 :: '-' :: d1 :: d2 ::
        (w ++ (a :: b :: ':' :: i1 :: i2 :: ':' :: s1 :: s2 :: []))) := by
  have hdd : ('-').isDigit = false := by decide
  have hds : ('-' : Char) ≠ '/' := by decide
  unfold tryFormats literalValue
  rw [strpDateTimeFrac_nofrac_none hdd hy1 hy2 hy3 hy4 hm1 hm2 hd1 hd2 ha hb
      hi1 hi2 hs1 hs2 hwne hws,
    strpDateTime_nofrac_eval hdd hy1 hy2 hy3 hy4 hm1 hm2 hd1 hd2 ha hb hi1 hi2
      hs1 hs2 hwne hws,
    strpDTF_fail_sep hds hy1 hy2 hy3 hy4, strpDT_fail_sep hds hy1 hy2 hy3 hy4,
    strpMdyFrac_fail_run4 hy1 hy2 hy3 hy4 hdd, strpMdy_fail_run4 hy1 hy2 hy3 hy4 hdd,
    literalYmd_eval hy1 hy2 hy3 hy4 hm1 hm2 hd1 hd2 hwne hws
      (notSpaceHead_of_digit ha)
      (literalTime_eval_nofrac ha hb hi1 hi2 hs1 hs2),
    literalYmd_fail_sep hds hy1 hy2 hy3 hy4, literalMdy_fail_digit3 hy1 hy2 hy3]

theorem tryLit2_frac {y1 y2 y3 y4 m1 m2 d1 d2 a b i1 i2 s1 s2 f1 f2 f3 : Char}
    {w : List Char}
    (hy1 : y1.isDigit = true) (hy2 : y2.isDigit = true) (hy3 : y3.isDigit = true)
    (hy4 : y4.isDigit = true) (hm1 : m1.isDigit = true) (hm2 : m2.isDigit = true)
    (hd1 : d1.isDigit = true) (hd2 : d2.isDigit = true)
    (ha : a.isDigit = true) (hb : b.isDigit = true)
    (hi1 : i1.isDigit = true) (hi2 : i2.isDigit = true)
    (hs1 : s1.isDigit = true) (hs2 : s2.isDigit = true)
    (hf1 : f1.isDigit = true) (hf2 : f2.isDigit = true) (hf3 : f3.isDigit = true)
    (hwne : w ≠ []) (hws : Spaces w) :
    tryFormats (y1 :: y2 :: y3 :: y4 :: '/' :: m1 :: m2 :: '/' :: d1 :: d2 ::
        (w ++ (a :: b :: ':' :: i1 :: i2 :: ':' :: s1 :: s2 :: '.' :: f1 :: f2 :: f3 :: []))) =
      literalValue (y1 :: y2 :: y3 :: y4 :: '/' :: m1 :: m2 :: '/' :: d1 :: d2 ::
        (w ++ (a :: b :: ':' :: i1 :: i2 :: ':' :: s1 :: s2 :: '.' :: f1 :: f2 :: f3 :: []))) := by
  have hsd : ('/').isDigit = false := by decide
  have hsd2 : ('/' : Char) ≠ '-' := by decide
  unfold tryFormats literalValue
  rw [strpDTF_fail_sep hsd2 hy1 hy2 hy3 hy4, strpDT_fail_sep hsd2 hy1 hy2 hy3 hy4,
    strpDateTimeFrac_eval hsd hy1 hy2 hy3 hy4 hm1 hm2 hd1 hd2 ha hb hi1 hi2
      hs1 hs2 hf1 hf2 hf3 hwne hws,
    strpDateTime_frac_none hsd hy1 hy2 hy3 hy4 hm1 hm2 hd1 hd2 ha hb hi1 hi2
      hs1 hs2 hwne hws,
    strpMdyFrac_fail_run4 hy1 hy2 hy3 hy4 hsd, strpMdy_fail_run4 hy1 hy2 hy3 hy4 hsd,
    literalYmd_eval hy1 hy2 hy3 hy4 hm1 hm2 hd1 hd2 hwne hws
      (notSpaceHead_of_digit ha)
      (literalTime_eval_frac ha hb hi1 hi2 hs1 hs2 hf1 hf2 hf3),
    literalYmd_fail_sep hsd2 hy1 hy2 hy3 hy4, literalMdy_fail_digit3 hy1 hy2 hy3]

theorem tryLit2_nofrac {y1 y2 y3 y4 m1 m2 d1 d2 a b i1 i2 s1 s2 : Char}
    {w : List Char}
    (hy1 : y1.isDigit = true) (hy2 : y2.isDigit = true) (hy3 : y3.isDigit = true)
    (hy4 : y4.isDigit = true) (hm1 : m1.isDigit = true) (hm2 : m2.isDigit = true)
    (hd1 : d1.isDigit = true) (hd2 : d2.isDigit = true)
    (ha : a.isDigit = true) (hb : b.isDigit = true)
    (hi1 : i1.isDigit = true) (hi2 : i2.isDigit = true)
    (hs1 : s1.isDigit = true) (hs2 : s2.isDigit = true)
    (hwne : w ≠ []) (hws : Spaces w) :
    tryFormats (y1 :: y2 :: y3 :: y4 :: '/' :: m1 :: m2 :: '/' :: d1 :: d2 ::
        (w ++ (a :: b :: ':' :: i1 :: i2 :: ':' :: s1 :: s2 :: []))) =
      literalValue (y1 :: y2 :: y3 :: y4 :: '/' :: m1 :: m2 :: '/' :: d1 :: d2 ::
        (w ++ (a :: b :: ':' :: i1 :: i2 :: ':' :: s1 :: s2 :: []))) := by
  have hsd : ('/').isDigit = false := by decide
  have hsd2 : ('/' : Char) ≠ '-' := by decide
  unfold tryFormats literalValue
  rw [strpDTF_fail_sep hsd2 hy1 hy2 hy3 hy4, strpDT_fail_sep hsd2 hy1 hy2 hy3 hy4,
    strpDateTimeFrac_nofrac_none hsd hy1 hy2 hy3 hy4 hm1 hm2 hd1 hd2 ha hb
      hi1 hi2 hs1 hs2 hwne hws,
    strpDateTime_nofrac_eval hsd hy1 hy2 hy3 hy4 hm1 hm2 hd1 hd2 ha hb hi1 hi2
      hs1 hs2 hwne hws,
    strpMdyFrac_fail_run4 hy1 hy2 hy3 hy4 hsd, strpMdy_fail_run4 hy1 hy2 hy3 hy4 hsd,
    literalYmd_eval hy1 hy2 hy3 hy4 hm1 hm2 hd1 hd2 hwne hws
      (notSpaceHead_of_digit ha)
      (literalTime_eval_nofrac ha hb hi1 hi2 hs1 hs2),
    literalYmd_fail_sep hsd2 hy1 hy2 hy3 hy4, literalMdy_fail_digit3 hy1 hy2 hy3]

theorem tryLit3_frac {m1 m2 d1 d2 y1 y2 y3 y4 a b i1 i2 s1 s2 f1 f2 f3 : Char}
    {w : List Char}
    (hm1 : m1.isDigit = true) (hm2 : m2.isDigit = true)
    (hd1 : d1.isDigit = true) (hd2 : d2.isDigit = true)
    (hy1 : y1.isDigit = true) (hy2 : y2.isDigit = true) (hy3 : y3.isDigit = true)
    (hy4 : y4.isDigit = true)
    (ha : a.isDigit = true) (hb : b.isDigit = true)
    (hi1 : i1.isDigit = true) (hi2 : i2.isDigit = true)
    (hs1 : s1.isDigit = true) (hs2 : s2.isDigit = true)
    (hf1 : f1.isDigit = true) (hf2 : f2.isDigit = true) (hf3 : f3.isDigit = true)
    (hwne : w ≠ []) (hws : Spaces w) :
    tryFormats (m1 :: m2 :: '/' :: d1 :: d2 :: '/' :: y1 :: y2 :: y3 :: y4 ::
        (w ++ (a :: b :: ':' :: i1 :: i2 :: ':' :: s1 :: s2 :: '.' :: f1 :: f2 :: f3 :: []))) =
      literalValue (m1 :: m2 :: '/' :: d1 :: d2 :: '/' :: y1 :: y2 :: y3 :: y4 ::
        (w ++ (a :: b :: ':' :: i1 :: i2 :: ':' :: s1 :: s2 :: '.' :: f1 :: f2 :: f3 :: []))) := by
  have hsd : ('/').isDigit = false := by decide
  unfold tryFormats literalValue
  rw [strpDTF_fail_shortYear hm1 hm2 hsd, strpDT_fail_shortYear hm1 hm2 hsd,
    strpDTF_fail_shortYear hm1 hm2 hsd, strpDT_fail_shortYear hm1 hm2 hsd,
    strpMdyFrac_eval hm1 hm2 hd1 hd2 hy1 hy2 hy3 hy4 ha hb hi1 hi2 hs1 hs2
      hf1 hf2 hf3 hwne hws,
    strpMdy_frac_none hm1 hm2 hd1 hd2 hy1 hy2 hy3 hy4 ha hb hi1 hi2 hs1 hs2
      hwne hws,
    literalYmd_fail_shortYear hm1 hm2 hsd, literalYmd_fail_shortYear hm1 hm2 hsd,
    literalMdy_eval hm1 hm2 hd1 hd2 hy1 hy2 hy3 hy4 hwne hws
      (notSpaceHead_of_digit ha)
      (literalTime_eval_frac ha hb hi1 hi2 hs1 hs2 hf1 hf2 hf3)]
  cases hmk : mkDT (charsToNat [y1, y2, y3, y4]) (charsToNat [m1, m2])
      (charsToNat [d1, d2]) (charsToNat [a, b]) (charsToNat [i1, i2])
      (charsToNat [s1, s2]) (charsToNat [f1, f2, f3] * 1000) with
  | some d => simp
  | none => simp

theorem tryLit3_nofrac {m1 m2 d1 d2 y1 y2 y3 y4 a b i1 i2 s1 s2 : Char}
    {w : List Char}
    (hm1 : m1.isDigit = true) (hm2 : m2.isDigit = true)
    (hd1 : d1.isDigit = true) (hd2 : d2.isDigit = true)
    (hy1 : y1.isDigit = true) (hy2 : y2.isDigit = true) (hy3 : y3.isDigit = true)
    (hy4 : y4.isDigit = true)
    (ha : a.isDigit = true) (hb : b.isDigit = true)
    (hi1 : i1.isDigit = true) (hi2 : i2.isDigit = true)
    (hs1 : s1.isDigit = true) (hs2 : s2.isDigit = true)
    (hwne : w ≠ []) (hws : Spaces w) :
    tryFormats (m1 :: m2 :: '/' :: d1 :: d2 :: '/' :: y1 :: y2 :: y3 :: y4 ::
        (w ++ (a :: b :: ':' :: i1 :: i2 :: ':' :: s1 :: s2 :: []))) =
      literalValue (m1 :: m2 :: '/' :: d1 :: d2 :: '/' :: y1 :: y2 :: y3 :: y4 ::
        (w ++ (a :: b :: ':' :: i1 :: i2 :: ':' :: s1 :: s2 :: []))) := by
  have hsd : ('/').isDigit = false := by decide
  unfold tryFormats literalValue
  rw [strpDTF_fail_shortYear hm1 hm2 hsd, strpDT_fail_shortYear hm1 hm2 hsd,
    strpDTF_fail_shortYear hm1 hm2 hsd, strpDT_fail_shortYear hm1 hm2 hsd,
    strpMdyFrac_nofrac_none hm1 hm2 hd1 hd2 hy1 hy2 hy3 hy4 ha hb hi1 hi2
      hs1 hs2 hwne hws,
    strpMdy_nofrac_eval hm1 hm2 hd1 hd2 hy1 hy2 hy3 hy4 ha hb hi1 hi2 hs1 hs2
      hwne hws,
    literalYmd_fail_shortYear hm1 hm2 hsd, literalYmd_fail_shortYear hm1 hm2 hsd,
    literalMdy_eval hm1 hm2 hd1 hd2 hy1 hy2 hy3 hy4 hwne hws
      (notSpaceHead_of_digit ha)
      (literalTime_eval_nofrac ha hb hi1 hi2 hs1 hs2)]

theorem tryFormats_eq_literal_of_match {cs s : List Char}
    (h : matchTs1At cs = some s ∨ matchTs2At cs = some s ∨ matchTs3At cs = some s) :
    tryFormats s = literalValue s := by
  rcases h with h | h | h
  · obtain ⟨y, mo, da, w, t, rfl, hyl, hml, hdl, hyd, hmd, hdd, hwne, hws, hts⟩ :=
      matchTs1At_shape h
    obtain ⟨hh, mi, ss, fr, rfl, hl1, hl2, hl3, hdg1, hdg2, hdg3, hfr⟩ := hts
    obtain ⟨y1, y2, y3, y4, rfl⟩ := list_len4 hyl
    obtain ⟨m1, m2, rfl⟩ := list_len2 hml
    obtain ⟨d1, d2, rfl⟩ := list_len2 hdl
    obtain ⟨a, b, rfl⟩ := list_len2 hl1
    obtain ⟨i1, i2, rfl⟩ := list_len2 hl2
    obtain ⟨s1, s2, rfl⟩ := list_len2 hl3
    have hy1 := hyd y1 (by simp)
    have hy2 := hyd y2 (by simp)
    have hy3 := hyd y3 (by simp)
    have hy4 := hyd y4 (by simp)
    have hm1 := hmd m1 (by simp)
    have hm2 := hmd m2 (by simp)
    have hd1 := hdd d1 (by simp)
    have hd2 := hdd d2 (by simp)
    have ha := hdg1 a (by simp)
    have hb := hdg1 b (by simp)
    have hi1 := hdg2 i1 (by simp)
    have hi2 := hdg2 i2 (by simp)
    have hs1 := hdg3 s1 (by simp)
    have hs2 := hdg3 s2 (by simp)
    rcases hfr with rfl | ⟨f3l, rfl, hfl, hfd⟩
    · simp only [List.cons_append, List.nil_append, List.append_assoc, List.append_nil]
      exact tryLit1_nofrac hy1 hy2 hy3 hy4 hm1 hm2 hd1 hd2 ha hb hi1 hi2 hs1 hs2
        hwne hws
    · obtain ⟨f1, f2, f3, rfl⟩ := list_len3 hfl
      have hf1 := hfd f1 (by simp)
      have hf2 := hfd f2 (by simp)
      have hf3 := hfd f3 (by simp)
      simp only [List.cons_append, List.nil_append, List.append_assoc]
      exact tryLit1_frac hy1 hy2 hy3 hy4 hm1 hm2 hd1 hd2 ha hb hi1 hi2 hs1 hs2
        hf1 hf2 hf3 hwne hws
  · obtain ⟨y, mo, da, w, t, rfl, hyl, hml, hdl, hyd, hmd, hdd, hwne, hws, hts⟩ :=
      matchTs2At_shape h
    obtain ⟨hh, mi, ss, fr, rfl, hl1, hl2, hl3, hdg1, hdg2, hdg3, hfr⟩ := hts
    obtain ⟨y1, y2, y3, y4, rfl⟩ := list_len4 hyl
    obtain ⟨m1, m2, rfl⟩ := list_len2 hml
    obtain ⟨d1, d2, rfl⟩ := list_len2 hdl
    obtain ⟨a, b, rfl⟩ := list_len2 hl1
    obtain ⟨i1, i2, rfl⟩ := list_len2 hl2
    obtain ⟨s1, s2, rfl⟩ := list_len2 hl3
    have hy1 := hyd y1 (by simp)
    have hy2 := hyd y2 (by simp)
    have hy3 := hyd y3 (by simp)
    have hy4 := hyd y4 (by simp)
    have hm1 := hmd m1 (by simp)
    have hm2 := hmd m2 (by simp)
    have hd1 := hdd d1 (by simp)
    have hd2 := hdd d2 (by simp)
    have ha := hdg1 a (by simp)
    have hb := hdg1 b (by simp)
    have hi1 := hdg2 i1 (by simp)
    have hi2 := hdg2 i2 (by simp)
    have hs1 := hdg3 s1 (by simp)
    have hs2 := hdg3 s2 (by simp)
    rcases hfr with rfl | ⟨f3l, rfl, hfl, hfd⟩
    · simp only [List.cons_append, List.nil_append, List.append_assoc, List.append_nil]
      exact tryLit2_nofrac hy1 hy2 hy3 hy4 hm1 hm2 hd1 hd2 ha hb hi1 hi2 hs1 hs2
        hwne hws
    · obtain ⟨f1, f2, f3, rfl⟩ := list_len3 hfl
      have hf1 := hfd f1 (by simp)
      have hf2 := hfd f2 (by simp)
      have hf3 := hfd f3 (by simp)
      simp only [List.cons_append, List.nil_append, List.append_assoc]
      exact tryLit2_frac hy1 hy2 hy3 hy4 hm1 hm2 hd1 hd2 ha hb hi1 hi2 hs1 hs2
        hf1 hf2 hf3 hwne hws
  · obtain ⟨mo, da, y, w, t, rfl, hyl, hml, hdl, hyd, hmd, hdd, hwne, hws, hts⟩ :=
      matchTs3At_shape h
    obtain ⟨hh, mi, ss, fr, rfl, hl1, hl2, hl3, hdg1, hdg2, hdg3, hfr⟩ := hts
    obtain ⟨y1, y2, y3, y4, rfl⟩ := list_len4 hyl
    obtain ⟨m1, m2, rfl⟩ := list_len2 hml
    obtain ⟨d1, d2, rfl⟩ := list_len2 hdl
    obtain ⟨a, b, rfl⟩ := list_len2 hl1
    obtain ⟨i1, i2, rfl⟩ := list_len2 hl2
    obtain ⟨s1, s2, rfl⟩ := list_len2 hl3
    have hy1 := hyd y1 (by simp)
    have hy2 := hyd y2 (by simp)
    have hy3 := hyd y3 (by simp)
    have hy4 := hyd y4 (by simp)
    have hm1 := hmd m1 (by simp)
    have hm2 := hmd m2 (by simp)
    have hd1 := hdd d1 (by simp)
    have hd2 := hdd d2 (by simp)
    have ha := hdg1 a (by simp)
    have hb := hdg1 b (by simp)
    have hi1 := hdg2 i1 (by simp)
    have hi2 := hdg2 i2 (by simp)
    have hs1 := hdg3 s1 (by simp)
    have hs2 := hdg3 s2 (by simp)
    rcases hfr with rfl | ⟨f3l, rfl, hfl, hfd⟩
    · simp only [List.cons_append, List.nil_append, List.append_assoc, List.append_nil]
      exact tryLit3_nofrac hm1 hm2 hd1 hd2 hy1 hy2 hy3 hy4 ha hb hi1 hi2 hs1 hs2
        hwne hws
    · obtain ⟨f1, f2, f3, rfl⟩ := list_len3 hfl
      have hf1 := hfd f1 (by simp)
      have hf2 := hfd f2 (by simp)
      have hf3 := hfd f3 (by simp)
      simp only [List.cons_append, List.nil_append, List.append_assoc]
      exact tryLit3_frac hm1 hm2 hd1 hd2 hy1 hy2 hy3 hy4 ha hb hi1 hi2 hs1 hs2
        hf1 hf2 hf3 hwne hws

theorem tsGo_step {m : List Char → Option (List Char)}
    {ms : List (List Char → Option (List Char))} {line : List Char} {d : PyDateTime}
    (hd : tsGo (m :: ms) line = some d) :
    (∃ s, searchAux m line = some s ∧ tryFormats s = some d) ∨
      tsGo ms line = some d := by
  rw [tsGo] at hd
  cases hs : searchAux m line with
  | none =>
    simp only [hs] at hd
    exact Or.inr hd
  | some s =>
    simp only [hs] at hd
    cases ht : tryFormats s with
    | none =>
      simp only [ht] at hd
      exact Or.inr hd
    | some d1 =>
      simp only [ht, Option.some.injEq] at hd
      exact Or.inl ⟨s, rfl, by rw [ht, hd]⟩

/-- C6: for every line whose text matches one of the three timestamp
patterns with a value parseable by the corresponding formats,
`extract_timestamp` returns a timestamp equal to the literal date-time
value of the matched substring; for every line matching none of the three
patterns it returns `none`. -/
theorem extract_timestamp_literal (line : List Char) :
    (searchAux matchTs1At line = none → searchAux matchTs2At line = none →
      searchAux matchTs3At line = none → extract_timestamp line = none)
    ∧ (∀ d, extract_timestamp line = some d →
        ∃ s, (searchAux matchTs1At line = some s ∨ searchAux matchTs2At line = some s ∨
            searchAux matchTs3At line = some s) ∧ literalValue s = some d)
    ∧ (∀ s d, (searchAux matchTs1At line = some s ∨ searchAux matchTs2At line = some s ∨
          searchAux matchTs3At line = some s) → literalValue s = some d →
        ∃ d', extract_timestamp line = some d') := by
  refine ⟨?_, ?_, ?_⟩
  · intro h1 h2 h3
    simp only [extract_timestamp, tsGo, h1, h2, h3]
  · intro d hd
    rw [extract_timestamp] at hd
    rcases tsGo_step hd with ⟨s, hs, ht⟩ | hd2
    · obtain ⟨c1, hc1⟩ := searchAux_some hs
      exact ⟨s, Or.inl hs,
        by rw [← tryFormats_eq_literal_of_match (Or.inl hc1), ht]⟩
    rcases tsGo_step hd2 with ⟨s, hs, ht⟩ | hd3
    · obtain ⟨c2, hc2⟩ := searchAux_some hs
      exact ⟨s, Or.inr (Or.inl hs),
        by rw [← tryFormats_eq_literal_of_match (Or.inr (Or.inl hc2)), ht]⟩
    rcases tsGo_step hd3 with ⟨s, hs, ht⟩ | hd4
    · obtain ⟨c3, hc3⟩ := searchAux_some hs
      exact ⟨s, Or.inr (Or.inr hs),
        by rw [← tryFormats_eq_literal_of_match (Or.inr (Or.inr hc3)), ht]⟩
    · exact Option.noConfusion hd4
  · intro s d hmem hlit
    have htf : tryFormats s = some d := by
      rcases hmem with hs | hs | hs
      · obtain ⟨c, hc⟩ := searchAux_some hs
        rw [tryFormats_eq_literal_of_match (Or.inl hc), hlit]
      · obtain ⟨c, hc⟩ := searchAux_some hs
        rw [tryFormats_eq_literal_of_match (Or.inr (Or.inl hc)), hlit]
      · obtain ⟨c, hc⟩ := searchAux_some hs
        rw [tryFormats_eq_literal_of_match (Or.inr (Or.inr hc)), hlit]
    rcases hmem with hs | hs | hs
    · exact ⟨d, by simp only [extract_timestamp, tsGo, hs, htf]⟩
    · cases hs1 : searchAux matchTs1At line with
      | none => exact ⟨d, by simp only [extract_timestamp, tsGo, hs1, hs, htf]⟩
      | some s1 =>
        cases ht1 : tryFormats s1 with
        | some d1 => exact ⟨d1, by simp only [extract_timestamp, tsGo, hs1, ht1]⟩
        | none =>
          exact ⟨d, by simp only [extract_timestamp, tsGo, hs1, ht1, hs, htf]⟩
    · cases hs1 : searchAux matchTs1At line with
      | some s1 =>
        cases ht1 : tryFormats s1 with
        | some d1 => exact ⟨d1, by simp only [extract_timestamp, tsGo, hs1, ht1]⟩
        | none =>
          cases hs2 : searchAux matchTs2At line with
          | some s2 =>
            cases ht2 : tryFormats s2 with
            | some d2 =>
              exact ⟨d2, by simp only [extract_timestamp, tsGo, hs1, ht1, hs2, ht2]⟩
            | none =>
              exact ⟨d,
                by simp only [extract_timestamp, tsGo, hs1, ht1, hs2, ht2, hs, htf]⟩
          | none =>
            exact ⟨d, by simp only [extract_timestamp, tsGo, hs1, ht1, hs2, hs, htf]⟩
      | none =>
        cases hs2 : searchAux matchTs2At line with
        | some s2 =>
          cases ht2 : tryFormats s2 with
          | some d2 =>
            exact ⟨d2, by simp only [extract_timestamp, tsGo, hs1, hs2, ht2]⟩
          | none =>
            exact ⟨d, by simp only [extract_timestamp, tsGo, hs1, hs2, ht2, hs, htf]⟩
        | none =>
          exact ⟨d, by simp only [extract_timestamp, tsGo, hs1, hs2, hs, htf]⟩

/-- Concrete instance of the C6 theorem: a pattern-2 match with a
parseable literal value yields a timestamp. -/
theorem extract_timestamp_literal_witness :
    ∃ d', extract_timestamp (("a 2025/06/28 10:00:00 b").data) = some d' :=
  (extract_timestamp_literal (("a 2025/06/28 10:00:00 b").data)).2.2
    (("2025/06/28 10:00:00").data) ⟨2025, 6, 28, 10, 0, 0, 0⟩
    (Or.inr (Or.inl (by decide))) (by decide)

theorem pyStrftime_tag (d : PyDateTime) :
    pyStrftime (("%Y%m%d_%H%M%S").data) d = specTimestampTag d := by
  rw [show ("%Y%m%d_%H%M%S").data =
    '%' :: 'Y' :: '%' :: 'm' :: '%' :: 'd' :: '_' :: '%' :: 'H' :: '%' :: 'M' ::
      '%' :: 'S' :: [] from by decide]
  simp [pyStrftime, strfDirective, specTimestampTag]

/-- C7: the derived output file names reproduce the spec's conventions
bit-exactly: severity mode joins the output directory with
`{base}_severity_{severity_lower}_and_above.log`, and time-range mode with
`{base}_timerange_{YYYYMMDD_HHMMSS(start)}_to_{YYYYMMDD_HHMMSS(end)}.log`. -/
theorem output_naming_convention (dir file sev : List Char) (s e : PyDateTime) :
    sev_output_file dir file sev =
      pyJoin dir (specSeverityFileName (baseNameNoExt file) (lowerStr sev))
    ∧ tr_output_file dir file s e =
      pyJoin dir (specTimerangeFileName (baseNameNoExt file)
        (specTimestampTag s) (specTimestampTag e)) := by
  constructor
  · rfl
  · unfold tr_output_file specTimerangeFileName
    rw [pyStrftime_tag, pyStrftime_tag]

end LogSplit
